import Mathlib

/-!
# Verification of the mini-k8s container orchestrator core

Shallow embedding of the core subsystems of the Container-Orchestration-Go
repository: the quantity parsers and node selection of the scheduler
(`internal/scheduler/resource_scheduler.go`), the service endpoint
reconciler and node monitor (`internal/controller`), the load balancer's
round-robin endpoint selection (`internal/loadbalancer`), and the SQL
resource repository (`internal/storage`).

Conventions of the embedding:
* Go `int`/`int64` are modelled as `Int`; 64-bit wrap-around is applied
  explicitly (`% 2^64` plus signed reinterpretation) exactly where the Go
  code can overflow (the string hash).
* Go `float64` values produced by `strconv.ParseFloat` are modelled as
  exact unnormalized decimals `m / 10^s` (`GoDec`); every concrete
  quantity appearing in the claims is exactly representable in `float64`,
  so the model agrees with the code on those inputs. The conversion
  `int64(f)` truncates toward zero, modelled by `Int.tdiv`. The scheduler's
  floating-point scores are modelled by exact rationals (`ℚ`).
* Go maps (labels, selectors, resource lists) are association lists; a Go
  map read returns the zero value `""` for a missing key, modelled by
  `lookupD`.
* `time.Time` values are integers (nanoseconds); `a.Sub(b)` is `a - b`.
* Fallible Go functions returning `(T, error)` become `Except String T`;
  the error strings reproduce the `fmt.Errorf` formats of the source.
-/

deriving instance DecidableEq for Except

/-- An exact decimal value `m / 10^s`, the result of parsing a decimal
floating-point literal. -/
structure GoDec where
  m : Int
  s : Nat
deriving DecidableEq

/-- Value of a list of decimal digit characters. -/
def digitsVal (cs : List Char) : Nat :=
  cs.foldl (fun a c => 10 * a + (c.toNat - 48)) 0

/-- Split an optional leading sign; returns (isNegative, rest). -/
def parseSign : List Char → Bool × List Char
  | '-' :: r => (true, r)
  | '+' :: r => (false, r)
  | r => (false, r)

/-- Exponent part of a decimal float literal (after the `e`/`E`),
applied to the already-parsed mantissa. -/
def parseExpPart (mant : GoDec) (cs : List Char) : Option GoDec :=
  let (eneg, r) := parseSign cs
  if r ≠ [] ∧ r.all Char.isDigit then
    if eneg then
      some ⟨mant.m, mant.s + digitsVal r⟩
    else
      some ⟨mant.m * (10 : Int) ^ digitsVal r, mant.s⟩
  else
    none

/-- Model of Go `strconv.ParseFloat` on decimal literals
(optional sign, digits with optional fraction, optional exponent).
Go additionally accepts hexadecimal floats, `inf`/`nan` spellings and
digit-group underscores; none of those occur in resource quantities, and
no claim depends on them. -/
def parseFloatChars (cs : List Char) : Option GoDec :=
  let (neg, cs1) := parseSign cs
  let (ip, cs2) := cs1.span Char.isDigit
  let (fp, cs3) :=
    match cs2 with
    | '.' :: r => r.span Char.isDigit
    | r => ([], r)
  if ip = [] ∧ fp = [] then
    none
  else
    let mval : Int := (digitsVal ip : Int) * (10 : Int) ^ fp.length + (digitsVal fp : Int)
    let mant : GoDec := ⟨if neg then -mval else mval, fp.length⟩
    match cs3 with
    | [] => some mant
    | 'e' :: r => parseExpPart mant r
    | 'E' :: r => parseExpPart mant r
    | _ => none

/-- Model of Go `strconv.ParseInt(s, 10, 64)`: optional sign and a
non-empty run of decimal digits. (The 64-bit range check is omitted; all
quantities in the claims are small.) -/
def parseIntChars (cs : List Char) : Option Int :=
  let (neg, r) := parseSign cs
  if r ≠ [] ∧ r.all Char.isDigit then
    some (if neg then -(digitsVal r : Int) else (digitsVal r : Int))
  else
    none

/-- Go `int64(f * k)` for an exact decimal `f = m / 10^s` and integer
multiplier `k`: exact multiplication followed by truncation toward
zero. -/
def GoDec.truncMul (d : GoDec) (k : Int) : Int :=
  (d.m * k).tdiv ((10 : Int) ^ d.s)

/-- `parseCPUResource` from `internal/scheduler/resource_scheduler.go`,
on the character list of the input: a trailing `m` means integer
millicores, otherwise a real number of cores converted to millicores. -/
def parseCPUChars (cs : List Char) : Except String Int :=
  if cs.getLast? = some 'm' then
    match parseIntChars cs.dropLast with
    | some v => .ok v
    | none => .error ("invalid CPU millicpu value: " ++ String.mk cs.dropLast)
  else
    match parseFloatChars cs with
    | some q => .ok (q.truncMul 1000)
    | none => .error ("invalid CPU value: " ++ String.mk cs)

/-- `parseCPUResource` on a string. -/
def parseCPUResource (s : String) : Except String Int :=
  parseCPUChars s.data

/-- Suffix detection of `parseMemoryResource`: a two-character suffix
`Ki`/`Mi`/`Gi`/`Ti` when the string is at least two characters long,
otherwise a one-character suffix `K`/`M`/`G`/`T`/`B`, otherwise no
suffix. Returns (suffix, numeric part). -/
def splitMemSuffix (cs : List Char) : List Char × List Char :=
  match cs.reverse with
  | 'i' :: 'K' :: rest => (['K', 'i'], rest.reverse)
  | 'i' :: 'M' :: rest => (['M', 'i'], rest.reverse)
  | 'i' :: 'G' :: rest => (['G', 'i'], rest.reverse)
  | 'i' :: 'T' :: rest => (['T', 'i'], rest.reverse)
  | c :: rest =>
    if c = 'K' ∨ c = 'M' ∨ c = 'G' ∨ c = 'T' ∨ c = 'B' then
      ([c], rest.reverse)
    else
      ([], cs)
  | [] => ([], cs)

/-- The multiplier switch of `parseMemoryResource`; `none` is the
`default` branch (`unknown memory unit`). -/
def memMultiplier : List Char → Option Int
  | ['K', 'i'] => some 1024
  | ['M', 'i'] => some (1024 * 1024)
  | ['G', 'i'] => some (1024 * 1024 * 1024)
  | ['T', 'i'] => some (1024 * 1024 * 1024 * 1024)
  | ['K'] => some 1000
  | ['M'] => some (1000 * 1000)
  | ['G'] => some (1000 * 1000 * 1000)
  | ['T'] => some (1000 * 1000 * 1000 * 1000)
  | ['B'] => some 1
  | [] => some 1
  | _ => none

/-- `parseMemoryResource` from `internal/scheduler/resource_scheduler.go`,
on the character list of the input. -/
def parseMemChars (cs : List Char) : Except String Int :=
  if cs = [] then
    .error "empty memory string"
  else
    let (suffix, value) := splitMemSuffix cs
    match parseFloatChars value with
    | none => .error ("invalid memory value: " ++ String.mk value)
    | some q =>
      match memMultiplier suffix with
      | some mult => .ok (q.truncMul mult)
      | none => .error ("unknown memory unit: " ++ String.mk suffix)

/-- `parseMemoryResource` on a string. -/
def parseMemoryResource (s : String) : Except String Int :=
  parseMemChars s.data

/-- `hashString` from the scheduler: `h = 31*h + s[i]` over the bytes of
the name in a 64-bit Go `int`, i.e. with wrap-around; the result is the
signed reinterpretation of the 64-bit accumulator. The byte iteration is
modelled on the character list, which coincides with the UTF-8 bytes for
the ASCII names the API admits. -/
def hashString (s : String) : Int :=
  let u : Nat := s.data.foldl (fun h c => (31 * h + c.toNat) % 18446744073709551616) 0
  if u < 9223372036854775808 then (u : Int) else (u : Int) - 18446744073709551616

example : parseCPUResource "500m" = .ok 500 := by decide
example : parseCPUResource "0.5" = .ok 500 := by decide
example : parseCPUResource "2" = .ok 2000 := by decide
example : parseMemoryResource "256Mi" = .ok 268435456 := by decide
example : parseMemoryResource "1G" = .ok 1000000000 := by decide
example : (parseMemoryResource "100X").isOk = false := by decide
example : hashString "aaaaaaaaaaaaaaa" = -444601536234623103 := by decide
example : parseCPUResource "-500m" = .ok (-500) := by decide
example : parseMemoryResource "-1Gi" = .ok (-1073741824) := by decide

/-! ## Data model (`pkg/types`)

Structures carry exactly the fields the embedded core functions read;
fields the core never touches (probes, env, addresses, timestamps not
used by the claims) are omitted. -/

/-- Go map read with zero-value default: `m[k]` is `""` when `k` is
absent. -/
def lookupD (m : List (String × String)) (k : String) : String :=
  (m.lookup k).getD ""

/-- `types.ContainerPort`. -/
structure KContainerPort where
  name : String
  containerPort : Int
deriving DecidableEq

/-- `types.Container`: name, ports and resource requests (an association
list from resource name to quantity string, like `types.ResourceList`). -/
structure KContainer where
  name : String
  ports : List KContainerPort
  requests : List (String × String)
deriving DecidableEq

/-- `types.PodSpec`. -/
structure KPodSpec where
  containers : List KContainer
  nodeSelector : List (String × String)
  nodeName : String
deriving DecidableEq

/-- `types.PodCondition` (timestamps as integer nanoseconds). -/
structure KPodCondition where
  type : String
  status : String
  lastTransitionTime : Int
  reason : String
  message : String
deriving DecidableEq

/-- `types.ContainerStatus` (the fields the reconciler reads). -/
structure KContainerStatus where
  name : String
  ready : Bool
deriving DecidableEq

/-- `types.PodStatus`. -/
structure KPodStatus where
  phase : String
  conditions : List KPodCondition
  containerStatuses : List KContainerStatus
  podIP : String
deriving DecidableEq

/-- `types.ObjectMeta` (the fields the core reads). -/
structure KObjectMeta where
  name : String
  namesp : String
  labels : List (String × String)
  uid : String
deriving DecidableEq

/-- `types.Pod`. -/
structure KPod where
  metadata : KObjectMeta
  spec : KPodSpec
  status : KPodStatus
deriving DecidableEq

/-- `types.NodeCondition` (timestamps as integer nanoseconds). -/
structure KNodeCondition where
  type : String
  status : String
  lastHeartbeatTime : Int
  lastTransitionTime : Int
  reason : String
  message : String
deriving DecidableEq

/-- `types.NodeStatus` (the fields the core reads). -/
structure KNodeStatus where
  allocatable : List (String × String)
  conditions : List KNodeCondition
deriving DecidableEq

/-- `types.Node`. -/
structure KNode where
  metadata : KObjectMeta
  status : KNodeStatus
deriving DecidableEq

/-! ## Scheduler (`internal/scheduler/resource_scheduler.go`) -/

/-- `matchNodeSelector`: every selector pair must be present in the
node's labels (a missing label reads as `""`). -/
def matchNodeSelector (node : KNode) (selector : List (String × String)) : Bool :=
  selector.all (fun kv => lookupD node.metadata.labels kv.1 == kv.2)

/-- `isNodeReady`: some condition has type `Ready` and status `True`. -/
def isNodeReady (node : KNode) : Bool :=
  node.status.conditions.any (fun c => c.type == "Ready" && c.status == "True")

/-- Accumulating loop of `calculatePodResourceRequests`: sum the parsed
`requests.cpu` (millicores) and `requests.memory` (bytes) of every
container, propagating the first parse error. -/
def calcRequestsAux (cpu mem : Int) : List KContainer → Except String (Int × Int)
  | [] => .ok (cpu, mem)
  | c :: rest =>
    match c.requests.lookup "cpu" with
    | some cpuStr =>
      match parseCPUChars cpuStr.data with
      | .error e => .error ("invalid CPU request: " ++ e)
      | .ok v =>
        match c.requests.lookup "memory" with
        | some memStr =>
          match parseMemChars memStr.data with
          | .error e => .error ("invalid memory request: " ++ e)
          | .ok w => calcRequestsAux (cpu + v) (mem + w) rest
        | none => calcRequestsAux (cpu + v) mem rest
    | none =>
      match c.requests.lookup "memory" with
      | some memStr =>
        match parseMemChars memStr.data with
        | .error e => .error ("invalid memory request: " ++ e)
        | .ok w => calcRequestsAux cpu (mem + w) rest
      | none => calcRequestsAux cpu mem rest

/-- `calculatePodResourceRequests`. -/
def calculatePodResourceRequests (pod : KPod) : Except String (Int × Int) :=
  calcRequestsAux 0 0 pod.spec.containers

/-- `getNodeAvailableResources`: read and parse `allocatable.cpu`
(millicores) and `allocatable.memory` (bytes). -/
def getNodeAvailableResources (node : KNode) : Except String (Int × Int) :=
  match node.status.allocatable.lookup "cpu" with
  | none => .error "node has no allocatable CPU"
  | some cpuStr =>
    match node.status.allocatable.lookup "memory" with
    | none => .error "node has no allocatable memory"
    | some memStr =>
      match parseCPUChars cpuStr.data with
      | .error e => .error ("invalid CPU allocatable: " ++ e)
      | .ok cpu =>
        match parseMemChars memStr.data with
        | .error e => .error ("invalid memory allocatable: " ++ e)
        | .ok mem => .ok (cpu, mem)

/-- Result of a node-selection call. `indexPanic` marks the Go runtime
panic raised by indexing a slice with a negative index. -/
inductive SelectResult where
  | ok (node : KNode)
  | err (msg : String)
  | indexPanic
deriving DecidableEq

/-- The node-selector filter shared by both `selectNode` variants:
with a non-empty selector keep the matching nodes and fail with
`no nodes match node selector` when none match; with an empty selector
all nodes are eligible. Result is `none` for the failure case. -/
def eligibleNodes (pod : KPod) (nodes : List KNode) : Option (List KNode) :=
  if pod.spec.nodeSelector ≠ [] then
    let filtered := nodes.filter (fun nd => matchNodeSelector nd pod.spec.nodeSelector)
    if filtered = [] then none else some filtered
  else
    some nodes

/-- The hash-indexed pick shared by `Scheduler.selectNode` and the
parse-failure fallback of `ResourceScheduler.selectNode`:
`eligible[hashString(name) % len(eligible)]` with Go's truncated `%`,
which panics when the hash is negative and the remainder nonzero. -/
def hashPick (name : String) (eligible : List KNode) : SelectResult :=
  let idx : Int := (hashString name).tmod (eligible.length : Int)
  if h : 0 ≤ idx ∧ idx < (eligible.length : Int) then
    .ok (eligible.get ⟨idx.toNat, by omega⟩)
  else
    .indexPanic

/-- `Scheduler.selectNode` (basic policy): selector filter, then the
deterministic hash pick. -/
def selectNodeBasic (pod : KPod) (nodes : List KNode) : SelectResult :=
  if nodes = [] then .err "no nodes available"
  else
    match eligibleNodes pod nodes with
    | none => .err "no nodes match node selector"
    | some eligible => hashPick pod.metadata.name eligible

/-- The score of a candidate node: the higher-pressure dimension
`max(cpuRequest/cpuAlloc, memRequest/memAlloc)`, in exact rationals. -/
def nodeScore (cr mr ncpu nmem : Int) : ℚ :=
  max ((cr : ℚ) / (ncpu : ℚ)) ((mr : ℚ) / (nmem : ℚ))

/-- One step of the best-fit loop of `ResourceScheduler.selectNode`:
skip nodes whose allocatable fails to resolve or is insufficient on
either axis; otherwise take the node when `bestScore == -1` (sentinel
for "none yet") or the score strictly improves. The accumulator is
(bestNode, bestScore). -/
def raStep (cr mr : Int) (acc : Option KNode × ℚ) (nd : KNode) : Option KNode × ℚ :=
  match getNodeAvailableResources nd with
  | .error _ => acc
  | .ok (ncpu, nmem) =>
    if ncpu < cr ∨ nmem < mr then acc
    else
      let score := nodeScore cr mr ncpu nmem
      if acc.2 = -1 ∨ score < acc.2 then (some nd, score) else acc

/-- `ResourceScheduler.selectNode`: selector filter, total resource
requests (falling back to the hash pick when they fail to parse), then
the lowest-pressure survivor, or the
`no node with sufficient resources available` error. -/
def selectNodeRA (pod : KPod) (nodes : List KNode) : SelectResult :=
  if nodes = [] then .err "no nodes available"
  else
    match eligibleNodes pod nodes with
    | none => .err "no nodes match node selector"
    | some eligible =>
      match calculatePodResourceRequests pod with
      | .error _ => hashPick pod.metadata.name eligible
      | .ok (cr, mr) =>
        match (eligible.foldl (raStep cr mr) (none, -1)).1 with
        | some nd => .ok nd
        | none => .err "no node with sufficient resources available"

/-! ## Service endpoint reconciler (`internal/controller`, ServiceController) -/

/-- `types.ServicePort`. -/
structure KServicePort where
  name : String
  port : Int
  targetPort : Int
deriving DecidableEq

/-- `types.Endpoint`. -/
structure KEndpoint where
  ip : String
  port : Int
  ready : Bool
  nodeName : String
deriving DecidableEq

/-- A stored Pod row (`storage.Resource` of kind Pod) whose metadata,
spec and status blobs parse; the JSON round-trip is modelled as
identity. -/
structure PodRow where
  id : String
  namesp : String
  name : String
  labels : List (String × String)
  spec : KPodSpec
  status : KPodStatus
deriving DecidableEq

/-- A stored Service row whose spec and status blobs parse. -/
structure ServiceRow where
  namesp : String
  name : String
  selector : List (String × String)
  ports : List KServicePort
  endpoints : List KEndpoint
deriving DecidableEq

/-- `matchesSelector`: an empty selector matches nothing; otherwise every
selector pair must be present in the pod's labels. -/
def matchesSelector (podLabels selector : List (String × String)) : Bool :=
  if selector = [] then false
  else selector.all (fun kv => lookupD podLabels kv.1 == kv.2)

/-- `isPodReady`: Running phase with an IP; an explicit `Ready`
condition decides if present, otherwise all reported containers must be
ready, and a pod with no reported containers counts as ready. -/
def isPodReady (st : KPodStatus) : Bool :=
  if st.phase != "Running" then false
  else if st.podIP == "" then false
  else
    match st.conditions.find? (fun c => c.type == "Ready") with
    | some c => c.status == "True"
    | none =>
      if st.containerStatuses ≠ [] then st.containerStatuses.all (fun cs => cs.ready)
      else true

/-- `findMatchingPods`: same namespace, selector match, ready. -/
def findMatchingPods (selector : List (String × String)) (pods : List PodRow)
    (namesp : String) : List PodRow :=
  pods.filter (fun p => p.namesp == namesp && matchesSelector p.labels selector
    && isPodReady p.status)

/-- Inner loop of `findContainerPort` over one container's ports: per
port, a name match (for a non-empty service-port name) is checked before
a number match, and the first hit is returned. -/
def findPortInList (targetPort : Int) (portName : String) :
    List KContainerPort → Option Int
  | [] => none
  | p :: rest =>
    if portName ≠ "" ∧ p.name = portName then some p.containerPort
    else if p.containerPort = targetPort then some p.containerPort
    else findPortInList targetPort portName rest

/-- `findContainerPort`: scan containers in order; 0 when no port
matches. -/
def findContainerPort (containers : List KContainer) (targetPort : Int)
    (portName : String) : Int :=
  match containers with
  | [] => 0
  | c :: rest =>
    match findPortInList targetPort portName c.ports with
    | some v => v
    | none => findContainerPort rest targetPort portName

/-- Port resolution of `buildEndpoints` for one service port:
`targetPort` defaults to `port` when zero, then the container-port scan,
falling back to `targetPort` when the scan returns 0. -/
def resolvePort (containers : List KContainer) (sp : KServicePort) : Int :=
  let tp := if sp.targetPort = 0 then sp.port else sp.targetPort
  let cp := findContainerPort containers tp sp.name
  if cp = 0 then tp else cp

/-- `buildEndpoints`: one endpoint per (pod with an IP, service port). -/
def buildEndpoints (pods : List PodRow) (ports : List KServicePort) : List KEndpoint :=
  pods.flatMap (fun p =>
    if p.status.podIP = "" then []
    else ports.map (fun sp =>
      { ip := p.status.podIP
        port := resolvePort p.spec.containers sp
        ready := isPodReady p.status
        nodeName := p.spec.nodeName }))

/-- The key of an endpoint in the comparison maps of `endpointsEqual`
(Go builds the string `ip:port`; the pair is the same key). -/
def epKey (e : KEndpoint) : String × Int :=
  (e.ip, e.port)

/-- The compared value of an endpoint: (ready, nodeName). -/
def epVal (e : KEndpoint) : Bool × String :=
  (e.ready, e.nodeName)

/-- The value a Go map built from the list holds at a key: the value of
the last occurrence of the key, `none` when absent. -/
def epLookup (l : List KEndpoint) (k : String × Int) : Option (Bool × String) :=
  match l with
  | [] => none
  | e :: rest =>
    match epLookup rest k with
    | some v => some v
    | none => if epKey e = k then some (epVal e) else none

/-- `endpointsEqual`: equal lengths, and at every key of `a`'s map the
value agrees with `b`'s map. -/
def endpointsEqual (a b : List KEndpoint) : Bool :=
  a.length == b.length &&
  a.all (fun e =>
    match epLookup a (epKey e), epLookup b (epKey e) with
    | some v, some w => v == w
    | _, _ => false)

/-- `reconcileService`, restricted to its endpoint computation and the
persistence decision: `some newEndpoints` means the service status is
written, `none` means the write is skipped. -/
def reconcileService (svc : ServiceRow) (pods : List PodRow) : Option (List KEndpoint) :=
  let matching := findMatchingPods svc.selector pods svc.namesp
  let eps := buildEndpoints matching svc.ports
  if endpointsEqual svc.endpoints eps then none else some eps

/-! ## Load balancer (`internal/loadbalancer`) -/

/-- The mutable state of a `ServiceProxy`: the endpoint slice and the
round-robin cursor. The Go cursor is an `int` starting at 0 and only
incremented, modelled as `Nat`. -/
structure ProxyState where
  endpoints : List KEndpoint
  current : Nat
deriving DecidableEq

/-- `ServiceProxy.getNextHealthyEndpoint`: filter to ready endpoints;
`none` when the list or the healthy sublist is empty (the cursor is then
untouched); otherwise `healthy[current % len(healthy)]`, incrementing
the cursor. -/
def getNextHealthyEndpoint (sp : ProxyState) : Option KEndpoint × ProxyState :=
  if sp.endpoints = [] then (none, sp)
  else
    let healthy := sp.endpoints.filter (fun e => e.ready)
    if h : healthy = [] then (none, sp)
    else
      (some (healthy.get ⟨sp.current % healthy.length,
          Nat.mod_lt _ (List.length_pos.mpr h)⟩),
        { sp with current := sp.current + 1 })

/-- The response of `LoadBalancer.handleRequest` once the proxy is
resolved: either the chosen endpoint or `503 No healthy endpoints
available`. -/
inductive DispatchResult where
  | routed (e : KEndpoint)
  | unavailable (code : Int) (body : String)
deriving DecidableEq

/-- One dispatch through a service proxy. -/
def dispatch (sp : ProxyState) : DispatchResult × ProxyState :=
  match getNextHealthyEndpoint sp with
  | (none, sp2) => (.unavailable 503 "No healthy endpoints available", sp2)
  | (some e, sp2) => (.routed e, sp2)

/-- `K` consecutive dispatches; returns the responses in order and the
final proxy state. -/
def dispatchN : Nat → ProxyState → List DispatchResult × ProxyState
  | 0, sp => ([], sp)
  | k + 1, sp =>
    let (r, sp1) := dispatch sp
    let (rs, sp2) := dispatchN k sp1
    (r :: rs, sp2)

/-! ## Node monitor (`internal/controller`, NodeMonitor) -/

/-- The `Ready` condition appended by `checkNodeHealth` when a node has
none. -/
def neverUpdatedCondition (now : Int) : KNodeCondition where
  type := "Ready"
  status := "Unknown"
  lastHeartbeatTime := now
  lastTransitionTime := now
  reason := "NodeStatusNeverUpdated"
  message := "Node has never reported status"

/-- Replace the conditions of a node. -/
def setConds (node : KNode) (conds : List KNodeCondition) : KNode :=
  { node with status := { node.status with conditions := conds } }

/-- Index of the first condition of type `Ready` (the search loop of
`checkNodeHealth`). -/
def findReadyIdx : List KNodeCondition → Option Nat
  | [] => none
  | c :: rest =>
    if c.type == "Ready" then some 0 else (findReadyIdx rest).map (· + 1)

/-- The first condition of type `Ready`, if any. -/
def firstReady : List KNodeCondition → Option KNodeCondition
  | [] => none
  | c :: rest => if c.type == "Ready" then some c else firstReady rest

/-- The per-node half of one `checkNodeHealth` iteration: locate (or
append) the `Ready` condition, compare the heartbeat age against the
timeout, and transition the status. Returns the updated node and
whether node-failure handling fires (the unhealthy transition). The Go
duration formatting inside the message is abstracted to `toString` of
the nanosecond difference. -/
def checkNodeCondition (now timeout : Int) (node : KNode) : KNode × Bool :=
  let conds0 := node.status.conditions
  let (conds, i) :=
    match findReadyIdx conds0 with
    | some i => (conds0, i)
    | none => (conds0 ++ [neverUpdatedCondition now], conds0.length)
  let rc := conds.getD i (neverUpdatedCondition now)
  let delta := now - rc.lastHeartbeatTime
  if delta > timeout then
    if rc.status ≠ "False" then
      let rc2 := { rc with
        status := "False"
        lastTransitionTime := now
        reason := "NodeNotReady"
        message := "Node has not sent a heartbeat for " ++ toString delta }
      (setConds node (conds.set i rc2), true)
    else
      (setConds node conds, false)
  else
    if rc.status ≠ "True" then
      let rc2 := { rc with
        status := "True"
        lastTransitionTime := now
        reason := "NodeReady"
        message := "Node is ready" }
      (setConds node (conds.set i rc2), false)
    else
      (setConds node conds, false)

/-! ## Resource store (`internal/storage`, SQLRepository) -/

/-- A row of the `resources` table; blobs are opaque strings. -/
structure StoreRow where
  id : String
  kind : String
  namesp : String
  name : String
  metadata : String
  spec : String
  status : String
  createdAt : Int
  updatedAt : Int
deriving DecidableEq

/-- The error message the embedded SQLite backend produces for a
violation of the `UNIQUE(kind, namespace, name)` constraint of
`internal/storage/schema.sql`. -/
def uniqueTripleMsg : String :=
  "UNIQUE constraint failed: resources.kind, resources.namespace, resources.name"

/-- The error message for a violation of the `id` primary key. -/
def uniqueIdMsg : String :=
  "UNIQUE constraint failed: resources.id"

/-- Does some row carry the (kind, namespace, name) triple? -/
def tripleExists (rows : List StoreRow) (kind namesp name : String) : Bool :=
  rows.any (fun r => r.kind == kind && r.namesp == namesp && r.name == name)

/-- `SQLRepository.CreateResource`: a plain INSERT with both timestamps
taken from the store's clock; the backend refuses a duplicate id or
key triple with a constraint error, wrapped by the repository. -/
def createResource (rows : List StoreRow) (res : StoreRow) (now : Int) :
    Except String (List StoreRow) :=
  if rows.any (fun r => r.id == res.id) then
    .error ("failed to create resource: " ++ uniqueIdMsg)
  else if tripleExists rows res.kind res.namesp res.name then
    .error ("failed to create resource: " ++ uniqueTripleMsg)
  else
    .ok (rows ++ [{ res with createdAt := now, updatedAt := now }])

/-- `SQLRepository.UpdateResource`: UPDATE of metadata/spec/status with
`updated_at` from the store's clock, keyed by the triple; zero affected
rows is the not-found error. -/
def updateResource (rows : List StoreRow) (res : StoreRow) (now : Int) :
    Except String (List StoreRow) :=
  let hit := fun (r : StoreRow) => r.kind == res.kind && r.namesp == res.namesp
    && r.name == res.name
  if rows.any hit then
    .ok (rows.map (fun r =>
      if hit r then
        { r with
          metadata := res.metadata
          spec := res.spec
          status := res.status
          updatedAt := now }
      else r))
  else
    .error ("resource not found: " ++ res.kind ++ "/" ++ res.namesp ++ "/" ++ res.name)

/-! ## Cluster state and the scheduler / monitor interactions -/

/-- A `pod_assignments` row (`storage.PodAssignment`). -/
structure Binding where
  podID : String
  nodeID : String
  status : String
  createdAt : Int
deriving DecidableEq

/-- The slice of the store the scheduler and node monitor read and
write: parsed Pod rows, nodes, and assignment rows. -/
structure ClusterState where
  pods : List PodRow
  nodes : List KNode
  bindings : List Binding
deriving DecidableEq

/-- The `types.Pod` the scheduler builds from a stored Pod row
(`getPendingPods`): UID from the row id; labels are not copied. -/
def podOfRow (p : PodRow) : KPod where
  metadata := { name := p.name, namesp := p.namesp, labels := [], uid := p.id }
  spec := p.spec
  status := p.status

/-- The pod update performed by `handleNodeFailure` on a pod of the
failed node: phase `Failed`, a `NodeFailed` condition, cleared
`nodeName`. -/
def failPod (now : Int) (nodeName : String) (p : PodRow) : PodRow :=
  { p with
    spec := { p.spec with nodeName := "" }
    status := { p.status with
      phase := "Failed"
      conditions := p.status.conditions ++ [{
        type := "NodeFailed"
        status := "True"
        lastTransitionTime := now
        reason := "NodeNotReady"
        message := "Node " ++ nodeName ++ " is not ready" }] } }

/-- `NodeMonitor.handleNodeFailure`: for every assignment on the failed
node, mark the assignment `NodeFailed`, then fail the pod with that
id. The assignment row is updated, never deleted. -/
def handleNodeFailure (now : Int) (node : KNode) (st : ClusterState) : ClusterState :=
  let asgn := st.bindings.filter (fun b => b.nodeID == node.metadata.uid)
  asgn.foldl (fun (st : ClusterState) (a : Binding) =>
    let st1 := { st with bindings := st.bindings.map (fun (b : Binding) =>
      if b.podID == a.podID then { b with status := "NodeFailed" } else b) }
    match st1.pods.find? (fun (p : PodRow) => p.id == a.podID) with
    | none => st1
    | some p =>
      { st1 with pods := st1.pods.map (fun (q : PodRow) =>
          if q.id == p.id then failPod now node.metadata.name p else q) }) st

/-- The pod update performed by `schedulePod` after node selection:
`nodeName` set, phase `Scheduled`, a `PodScheduled` condition. -/
def markScheduled (now : Int) (nodeName : String) (p : PodRow) : PodRow :=
  { p with
    spec := { p.spec with nodeName := nodeName }
    status := { p.status with
      phase := "Scheduled"
      conditions := p.status.conditions ++ [{
        type := "PodScheduled"
        status := "True"
        lastTransitionTime := now
        reason := "Scheduled"
        message := "Successfully assigned " ++ p.namesp ++ "/" ++ p.name
          ++ " to " ++ nodeName }] } }

/-- `Scheduler.schedulePod`, parameterized by the node-selection policy:
skip when an assignment row for the pod already exists; otherwise select
a node, insert a Pending assignment, and mark the pod Scheduled. A
selection error (or panic) leaves the state unchanged. -/
def schedulePodWith (select : KPod → List KNode → SelectResult) (now : Int)
    (st : ClusterState) (pod : PodRow) (nodes : List KNode) : ClusterState :=
  if st.bindings.any (fun b => b.podID == pod.id) then st
  else
    match select (podOfRow pod) nodes with
    | .ok nd =>
      let st1 := { st with bindings := st.bindings ++
        [({ podID := pod.id, nodeID := nd.metadata.uid, status := "Pending",
            createdAt := now } : Binding)] }
      { st1 with pods := st1.pods.map (fun q =>
          if q.id == pod.id then markScheduled now nd.metadata.name pod else q) }
    | _ => st

/-- `Scheduler.schedulePendingPods` (one tick): pending pods are those
with an empty `nodeName` and a phase other than `Scheduled`; with no
ready node the tick fails; otherwise each pending pod is scheduled onto
the ready nodes. -/
def schedulerTick (select : KPod → List KNode → SelectResult) (now : Int)
    (st : ClusterState) : Except String ClusterState :=
  let pending := st.pods.filter (fun p =>
    p.spec.nodeName == "" && p.status.phase != "Scheduled")
  if pending = [] then .ok st
  else
    let ready := st.nodes.filter isNodeReady
    if ready = [] then .error "no available nodes for scheduling"
    else .ok (pending.foldl (fun s p => schedulePodWith select now s p ready) st)

/-! ## Concrete inputs used by the claim instances -/

/-- A node condition with `Ready = True` and a fresh heartbeat. -/
def readyTrueCond : KNodeCondition where
  type := "Ready"
  status := "True"
  lastHeartbeatTime := 0
  lastTransitionTime := 0
  reason := "NodeReady"
  message := "Node is ready"

/-- A node condition with `Ready = False`. -/
def readyFalseCond : KNodeCondition where
  type := "Ready"
  status := "False"
  lastHeartbeatTime := 0
  lastTransitionTime := 0
  reason := "NodeNotReady"
  message := ""

/-- Failed node `n1` of the failover scenario (its `Ready` condition has
already been transitioned to `False` by the monitor). -/
def nodeN1 : KNode where
  metadata := { name := "n1", namesp := "", labels := [], uid := "uid-n1" }
  status := { allocatable := [("cpu", "4"), ("memory", "8Gi")],
              conditions := [readyFalseCond] }

/-- Healthy node `n2` of the failover scenario. -/
def nodeN2 : KNode where
  metadata := { name := "n2", namesp := "", labels := [], uid := "uid-n2" }
  status := { allocatable := [("cpu", "4"), ("memory", "8Gi")],
              conditions := [readyTrueCond] }

/-- Pod `web` bound to node `n1` and Running there. -/
def podWeb : PodRow where
  id := "uid-p"
  namesp := "default"
  name := "web"
  labels := []
  spec := { containers := [], nodeSelector := [], nodeName := "n1" }
  status := { phase := "Running", conditions := [], containerStatuses := [],
              podIP := "10.0.0.1" }

/-- Failover scenario: `web` bound to `n1` with a Pending assignment,
`n2` healthy. -/
def failoverState : ClusterState where
  pods := [podWeb]
  nodes := [nodeN1, nodeN2]
  bindings := [{ podID := "uid-p", nodeID := "uid-n1", status := "Pending",
                 createdAt := 0 }]

/-- Pod whose single container carries negative resource requests. -/
def negPod : KPod where
  metadata := { name := "neg", namesp := "default", labels := [], uid := "uid-neg" }
  spec :=
    { containers := [⟨"c", [], [("cpu", "-500m"), ("memory", "-1Gi")]⟩]
      nodeSelector := []
      nodeName := "" }
  status := { phase := "Pending", conditions := [], containerStatuses := [], podIP := "" }

/-- A tiny node: 1 core, 1 KiB of memory. -/
def tinyNode : KNode where
  metadata := { name := "tiny", namesp := "", labels := [], uid := "uid-tiny" }
  status := { allocatable := [("cpu", "1"), ("memory", "1Ki")],
              conditions := [readyTrueCond] }

/-! ## C8 — quantity parsing -/

/-- C8: the quantity parsers compute exactly the specified values:
`parseCPUResource` maps "500m" to 500, "0.5" to 500 and "2" to 2000
millicores; `parseMemoryResource` applies the suffix multipliers
Ki=2^10, Mi=2^20, Gi=2^30, Ti=2^40, K=10^3, M=10^6, G=10^9, T=10^12,
B=1, and no suffix means bytes; an input with an unparseable numeric
prefix or an unknown suffix (such as "100X") is rejected with an
error. -/
theorem c8_quantity_parsers :
    parseCPUResource "500m" = .ok 500 ∧
    parseCPUResource "0.5" = .ok 500 ∧
    parseCPUResource "2" = .ok 2000 ∧
    parseMemoryResource "256Mi" = .ok (256 * 2 ^ 20) ∧
    parseMemoryResource "1Gi" = .ok (2 ^ 30) ∧
    parseMemoryResource "1G" = .ok (10 ^ 9) ∧
    parseMemoryResource "3Ki" = .ok (3 * 2 ^ 10) ∧
    parseMemoryResource "3Mi" = .ok (3 * 2 ^ 20) ∧
    parseMemoryResource "3Ti" = .ok (3 * 2 ^ 40) ∧
    parseMemoryResource "3K" = .ok (3 * 10 ^ 3) ∧
    parseMemoryResource "3M" = .ok (3 * 10 ^ 6) ∧
    parseMemoryResource "3T" = .ok (3 * 10 ^ 12) ∧
    parseMemoryResource "3B" = .ok 3 ∧
    parseMemoryResource "3" = .ok 3 ∧
    (parseMemoryResource "100X").isOk = false ∧
    (parseCPUResource "abcm").isOk = false ∧
    (parseCPUResource "abc").isOk = false ∧
    (parseMemoryResource "zzMi").isOk = false := by
  decide

/-! ## C10 — negative quantities parse successfully -/

/-- C10: the parsers accept negative numeric inputs instead of rejecting
them — `parseCPUResource "-500m" = -500` and
`parseMemoryResource "-1Gi" = -2^30` — so a pod with negative requests
yields a valid (trivially satisfiable) demand, and resource-aware
selection happily binds it. -/
theorem c10_negative_quantities :
    parseCPUResource "-500m" = .ok (-500) ∧
    parseMemoryResource "-1Gi" = .ok (-(2 ^ 30)) ∧
    calculatePodResourceRequests negPod = .ok (-500, -(2 ^ 30)) ∧
    selectNodeRA negPod [tinyNode] = .ok tinyNode := by
  refine ⟨by decide, by decide, by decide, ?_⟩
  have h1 : calculatePodResourceRequests negPod = .ok (-500, -1073741824) := by
    decide
  have h2 : getNodeAvailableResources tinyNode = .ok (1000, 1024) := by decide
  have h3 : negPod.spec.nodeSelector = [] := by decide
  simp [selectNodeRA, eligibleNodes, h1, h2, h3, raStep]

/-! ## C5 — store error contract -/

/-- C5: `CreateResource` on an existing (kind, namespace, name) triple
returns the conflict (unique-constraint) error, `UpdateResource` on a
missing triple returns the not-found error, the two error values are
distinct (hence distinguishable by the caller), and a successful
`UpdateResource` stamps `updated_at` with the store's own clock, not the
caller-supplied value. -/
theorem c5_store_error_contract (rows : List StoreRow) (res resU : StoreRow)
    (now now2 : Int)
    (hid : (rows.any fun r => r.id == res.id) = false)
    (hdup : tripleExists rows res.kind res.namesp res.name = true)
    (hmiss : tripleExists rows resU.kind resU.namesp resU.name = false) :
    createResource rows res now = .error ("failed to create resource: " ++ uniqueTripleMsg) ∧
    updateResource rows resU now
      = .error ("resource not found: " ++ resU.kind ++ "/" ++ resU.namesp ++ "/" ++ resU.name) ∧
    ("failed to create resource: " ++ uniqueTripleMsg)
      ≠ ("resource not found: " ++ resU.kind ++ "/" ++ resU.namesp ++ "/" ++ resU.name) ∧
    (∃ rows2, updateResource rows res now2 = .ok rows2 ∧
      ∀ r ∈ rows2, r.kind = res.kind → r.namesp = res.namesp → r.name = res.name →
        r.updatedAt = now2) := by
  refine ⟨?_, ?_, ?_, ?_⟩
  · simp only [createResource, hid, Bool.false_eq_true, if_false, hdup, if_true]
  · simp only [updateResource, tripleExists] at hmiss ⊢
    simp [hmiss]
  · intro h
    have h1 : ("failed to create resource: " ++ uniqueTripleMsg).data.head? = some 'f' := by
      decide
    have h2 : ("resource not found: " ++ resU.kind ++ "/" ++ resU.namesp ++ "/"
        ++ resU.name).data.head? = some 'r' := rfl
    rw [h, h2] at h1
    exact absurd h1 (by decide)
  · have hok : updateResource rows res now2 = .ok (rows.map (fun r =>
        if r.kind == res.kind && r.namesp == res.namesp && r.name == res.name then
          { r with
            metadata := res.metadata
            spec := res.spec
            status := res.status
            updatedAt := now2 }
        else r)) := by
      simp only [updateResource, tripleExists] at hdup ⊢
      simp [hdup]
    refine ⟨_, hok, ?_⟩
    intro r hr hk hn hm
    simp only [List.mem_map] at hr
    obtain ⟨r0, _, hr0⟩ := hr
    by_cases hhit : (r0.kind == res.kind && r0.namesp == res.namesp
        && r0.name == res.name) = true
    · rw [← hr0]
      simp [hhit]
    · exfalso
      rw [← hr0] at hk hn hm
      simp [hhit] at hk hn hm
      simp [hk, hn, hm] at hhit

/-- C5 witness rows. -/
def w5row : StoreRow where
  id := "id-1"
  kind := "Pod"
  namesp := "default"
  name := "web"
  metadata := "{}"
  spec := "{}"
  status := ""
  createdAt := 0
  updatedAt := 0

/-- C5 witness: instantiate the store contract on a one-row store with a
duplicate create and an update of a missing Service. -/
theorem c5_store_error_contract_witness :
    createResource [w5row] { w5row with id := "id-2" } 7
        = .error ("failed to create resource: " ++ uniqueTripleMsg) ∧
    updateResource [w5row] { w5row with kind := "Service" } 7
        = .error ("resource not found: Service/default/web") ∧
    (∃ rows2, updateResource [w5row] { w5row with id := "id-2" } 9 = .ok rows2 ∧
      ∀ r ∈ rows2, r.kind = "Pod" → r.namesp = "default" → r.name = "web" →
        r.updatedAt = 9) := by
  obtain ⟨h1, h2, _, h4⟩ := c5_store_error_contract [w5row]
    { w5row with id := "id-2" } { w5row with kind := "Service" } 7 9
    (by decide) (by decide) (by decide)
  exact ⟨h1, h2, h4⟩

/-! ## C1 — failover leaves a stale assignment that blocks rescheduling -/

/-- C1: after `handleNodeFailure` the pod is unbound (`nodeName = ""`,
phase `Failed`, condition `NodeFailed`, binding status `NodeFailed`),
but the next scheduler tick — with healthy node `n2` available — leaves
the state completely unchanged, because `schedulePod` skips any pod that
still has a `PodAssignment` row and `handleNodeFailure` never deletes
the row. Had the row been deleted, the very same tick would have bound
the pod to `n2`: the code defeats its own
`Clear node name to allow rescheduling` intent. -/
theorem c1_stale_binding_blocks_rescheduling :
    (handleNodeFailure 100 nodeN1 failoverState).pods.map
        (fun p => (p.spec.nodeName, p.status.phase)) = [("", "Failed")] ∧
    (handleNodeFailure 100 nodeN1 failoverState).pods.map
        (fun p => p.status.conditions.map (fun c => (c.type, c.status)))
        = [[("NodeFailed", "True")]] ∧
    (handleNodeFailure 100 nodeN1 failoverState).bindings.map
        (fun b => (b.podID, b.nodeID, b.status))
        = [("uid-p", "uid-n1", "NodeFailed")] ∧
    schedulerTick selectNodeBasic 200 (handleNodeFailure 100 nodeN1 failoverState)
        = .ok (handleNodeFailure 100 nodeN1 failoverState) ∧
    (schedulerTick selectNodeBasic 200
        { handleNodeFailure 100 nodeN1 failoverState with bindings := [] }).map
        (fun st => st.pods.map (fun p => (p.spec.nodeName, p.status.phase)))
        = .ok [("n2", "Scheduled")] := by
  decide

/-! ## C6 — hash-based basic node selection -/

/-- A pod whose 15-character name wraps the 64-bit hash to a negative
value. -/
def longNamePod : KPod where
  metadata := { name := "aaaaaaaaaaaaaaa", namesp := "default", labels := [],
                uid := "uid-long" }
  spec := { containers := [], nodeSelector := [], nodeName := "" }
  status := { phase := "Pending", conditions := [], containerStatuses := [],
              podIP := "" }

/-- C6 counterexample: for the 15-character name `aaaaaaaaaaaaaaa` the
wrapped hash is negative and odd, so with two eligible nodes Go computes
index `-1` and the slice access panics — basic selection is not total. -/
theorem c6_counterexample :
    hashString "aaaaaaaaaaaaaaa" = -444601536234623103 ∧
    selectNodeBasic longNamePod [nodeN1, nodeN2] = .indexPanic := by
  decide

/-- The hash pick succeeds and lands in bounds whenever the wrapped hash
is nonnegative. -/
theorem hashPick_of_nonneg (name : String) (eligible : List KNode)
    (hne : eligible ≠ []) (hh : 0 ≤ hashString name) :
    ∃ h : (hashString name).toNat % eligible.length < eligible.length,
      hashPick name eligible
        = .ok (eligible.get ⟨(hashString name).toNat % eligible.length, h⟩) := by
  have hlen : 0 < eligible.length := List.length_pos.mpr hne
  have hmod : (hashString name).toNat % eligible.length < eligible.length :=
    Nat.mod_lt _ hlen
  refine ⟨hmod, ?_⟩
  have hidx : (hashString name).tmod (eligible.length : Int)
      = (((hashString name).toNat % eligible.length : Nat) : Int) := by
    conv_lhs => rw [← Int.toNat_of_nonneg hh]
    rfl
  unfold hashPick
  simp only [hidx]
  rw [dif_pos]
  · rfl
  · constructor
    · exact Int.ofNat_nonneg _
    · exact_mod_cast hmod

/-- C6 (amended): basic selection computes
`eligible[hash(name) tmod len(eligible)]` with Go's truncated `%`; the
index is in bounds — and selection total — exactly on names whose
64-bit-wrapped hash is nonnegative, where it equals
`hash.toNat % len(eligible)`. Names of 14 bytes or more can wrap the
hash negative, in which case the index is negative and the slice access
panics (see the counterexample). -/
theorem c6_basic_selection_in_bounds (pod : KPod) (nodes eligible : List KNode)
    (hne : nodes ≠ []) (helig : eligibleNodes pod nodes = some eligible)
    (hh : 0 ≤ hashString pod.metadata.name) :
    ∃ h : (hashString pod.metadata.name).toNat % eligible.length < eligible.length,
      selectNodeBasic pod nodes
        = .ok (eligible.get
            ⟨(hashString pod.metadata.name).toNat % eligible.length, h⟩) := by
  have helne : eligible ≠ [] := by
    unfold eligibleNodes at helig
    by_cases hsel : pod.spec.nodeSelector ≠ []
    · rw [if_pos hsel] at helig
      by_cases hf : nodes.filter (fun nd => matchNodeSelector nd pod.spec.nodeSelector) = []
      · rw [if_pos hf] at helig
        exact absurd helig (by simp)
      · rw [if_neg hf] at helig
        rw [← Option.some_inj.mp helig]
        exact hf
    · rw [if_neg hsel] at helig
      rw [← Option.some_inj.mp helig]
      exact hne
  obtain ⟨h, heq⟩ := hashPick_of_nonneg pod.metadata.name eligible helne hh
  refine ⟨h, ?_⟩
  unfold selectNodeBasic
  rw [if_neg hne, helig]
  exact heq

/-- C6 witness: the 3-byte name `web` hashes to 117588 ≥ 0; with the two
nodes `n1`, `n2` eligible the selection returns `eligible[117588 % 2]`,
node `n1`. -/
theorem c6_basic_selection_witness :
    selectNodeBasic (podOfRow podWeb) [nodeN1, nodeN2] = .ok nodeN1 := by
  obtain ⟨h, heq⟩ := c6_basic_selection_in_bounds (podOfRow podWeb)
    [nodeN1, nodeN2] [nodeN1, nodeN2] (by decide) (by decide) (by decide)
  rw [heq]
  rfl

/-! ## C3 — endpoint port resolution -/

/-- The container list of the C3 counterexample: one container with an
unnamed port 8080 and a port named `web` numbered 9090. -/
def c3Containers : List KContainer :=
  [⟨"c", [⟨"", 8080⟩, ⟨"web", 9090⟩], []⟩]

/-- Service port `web`, port 80, targetPort 8080. -/
def c3Port : KServicePort :=
  ⟨"web", 80, 8080⟩

/-- A ready pod exposing the C3 counterexample containers. -/
def c3Pod : PodRow where
  id := "uid-c3"
  namesp := "default"
  name := "p3"
  labels := [("app", "web")]
  spec := { containers := c3Containers, nodeSelector := [], nodeName := "nX" }
  status := { phase := "Running", conditions := [], containerStatuses := [],
              podIP := "10.0.0.9" }

/-- C3 counterexample: a container port named `web` (9090) exists, yet
the emitted endpoint carries 8080 — the unnamed port whose number equals
`targetPort` and which precedes the named port in scan order. The name
match does not take global priority. -/
theorem c3_counterexample :
    resolvePort c3Containers c3Port = 8080 ∧
    buildEndpoints [c3Pod] [c3Port] = [⟨"10.0.0.9", 8080, true, "nX"⟩] ∧
    (∃ c ∈ c3Containers, ∃ p ∈ c.ports,
      p.name = c3Port.name ∧ p.containerPort = 9090) ∧
    (8080 : Int) ≠ 9090 := by
  decide

/-- The per-port hit test of the container-port scan: a port matches by
name (when the service-port name is non-empty) or by number equal to
`targetPort`, and contributes its own number. -/
def portHit (tp : Int) (nm : String) (p : KContainerPort) : Option Int :=
  if (nm ≠ "" ∧ p.name = nm) ∨ p.containerPort = tp then some p.containerPort
  else none

/-- The specified resolution: the first hit over all container ports in
scan order, with the 0 / no-hit fallbacks to `targetPort` (itself
defaulting to `port`). -/
def resolvePortFirstHit (containers : List KContainer) (sp : KServicePort) : Int :=
  let tp := if sp.targetPort = 0 then sp.port else sp.targetPort
  match (containers.flatMap (fun c => c.ports)).findSome? (portHit tp sp.name) with
  | some cp => if cp = 0 then tp else cp
  | none => tp

theorem findPortInList_eq_findSome? (tp : Int) (nm : String)
    (ports : List KContainerPort) :
    findPortInList tp nm ports = ports.findSome? (portHit tp nm) := by
  induction ports with
  | nil => rfl
  | cons p rest ih =>
    by_cases h1 : nm ≠ "" ∧ p.name = nm
    · simp [findPortInList, List.findSome?_cons, portHit, h1]
    · by_cases h2 : p.containerPort = tp
      · simp [findPortInList, List.findSome?_cons, portHit, h1, h2]
      · simp [findPortInList, List.findSome?_cons, portHit, h1, h2, ih]

theorem findContainerPort_eq_findSome? (containers : List KContainer) (tp : Int)
    (nm : String) :
    findContainerPort containers tp nm
      = ((containers.flatMap (fun c => c.ports)).findSome? (portHit tp nm)).getD 0 := by
  induction containers with
  | nil => rfl
  | cons c rest ih =>
    rw [List.flatMap_cons, List.findSome?_append]
    cases h : c.ports.findSome? (portHit tp nm) with
    | some v =>
      simp [findContainerPort, findPortInList_eq_findSome?, h, Option.or]
    | none =>
      simp [findContainerPort, findPortInList_eq_findSome?, h, Option.or, ih]

/-- C3 (amended): port resolution is a single scan over the containers'
ports in declaration order; the first port matching the service port's
name (when non-empty) or whose number equals `targetPort` wins — per
port the name test runs first, but a name match in a later port does not
override an earlier number match. With no hit, or a hit whose port
number is 0, `targetPort` is used, where `targetPort` defaults to `port`
when zero. -/
theorem c3_port_resolution_first_hit (containers : List KContainer)
    (sp : KServicePort) :
    resolvePort containers sp = resolvePortFirstHit containers sp := by
  simp only [resolvePort, resolvePortFirstHit, findContainerPort_eq_findSome?]
  cases h : (containers.flatMap (fun c => c.ports)).findSome?
      (portHit (if sp.targetPort = 0 then sp.port else sp.targetPort) sp.name) with
  | some v => simp
  | none => simp

/-! ## C9 — the monitor always leaves a definite Ready status -/

theorem findReadyIdx_none_all (conds : List KNodeCondition)
    (h : findReadyIdx conds = none) :
    ∀ c ∈ conds, (c.type == "Ready") = false := by
  induction conds with
  | nil => intro c hc; cases hc
  | cons c rest ih =>
    intro d hd
    by_cases hc : (c.type == "Ready") = true
    · simp [findReadyIdx, hc] at h
    · cases hrest : findReadyIdx rest with
      | none =>
        rcases List.mem_cons.mp hd with rfl | hd2
        · simpa using hc
        · exact ih hrest d hd2
      | some j => simp [findReadyIdx, hc, hrest] at h

theorem findReadyIdx_some_getD (conds : List KNodeCondition) (i : Nat)
    (d : KNodeCondition) (h : findReadyIdx conds = some i) :
    ((conds.getD i d).type == "Ready") = true
      ∧ firstReady conds = some (conds.getD i d) := by
  induction conds generalizing i with
  | nil => cases h
  | cons c rest ih =>
    by_cases hc : (c.type == "Ready") = true
    · simp only [findReadyIdx, hc, if_true, Option.some_inj] at h
      subst h
      simp [List.getD, firstReady, hc]
    · cases hrest : findReadyIdx rest with
      | none => simp [findReadyIdx, hc, hrest] at h
      | some j =>
        simp only [findReadyIdx, hc, Bool.false_eq_true, if_false, hrest] at h
        simp at h
        subst h
        have := ih j hrest
        simpa [List.getD, firstReady, hc] using this

theorem firstReady_set_of_findReadyIdx (conds : List KNodeCondition) (i : Nat)
    (v : KNodeCondition) (h : findReadyIdx conds = some i)
    (hv : (v.type == "Ready") = true) :
    firstReady (conds.set i v) = some v := by
  induction conds generalizing i with
  | nil => cases h
  | cons c rest ih =>
    by_cases hc : (c.type == "Ready") = true
    · simp only [findReadyIdx, hc, if_true, Option.some_inj] at h
      subst h
      simp [List.set, firstReady, hv]
    · cases hrest : findReadyIdx rest with
      | none => simp [findReadyIdx, hc, hrest] at h
      | some j =>
        simp only [findReadyIdx, hc, Bool.false_eq_true, if_false, hrest] at h
        simp at h
        subst h
        simp [List.set, firstReady, hc, ih j hrest]

theorem getD_append_length (l : List KNodeCondition) (c d : KNodeCondition) :
    (l ++ [c]).getD l.length d = c := by
  induction l with
  | nil => rfl
  | cons x xs ih => simp only [List.cons_append, List.length_cons, List.getD]; exact ih

theorem set_append_length (l : List KNodeCondition) (c v : KNodeCondition) :
    (l ++ [c]).set l.length v = l ++ [v] := by
  induction l with
  | nil => rfl
  | cons x xs ih => simp [List.set, ih]

theorem firstReady_append_of_none (l : List KNodeCondition) (v : KNodeCondition)
    (h : findReadyIdx l = none) (hv : (v.type == "Ready") = true) :
    firstReady (l ++ [v]) = some v := by
  induction l with
  | nil => simp [firstReady, hv]
  | cons c rest ih =>
    by_cases hc : (c.type == "Ready") = true
    · simp [findReadyIdx, hc] at h
    · simp only [findReadyIdx, hc, Bool.false_eq_true, if_false] at h
      simp only [List.cons_append, firstReady, hc, Bool.false_eq_true, if_false]
      exact ih (by simpa using h)

/-- C9: after the monitor examines a node, the node's first `Ready`
condition exists and its status is `True` or `False` — never absent and
never `Unknown`. In particular (second conjunct, for a nonnegative
timeout) a node with no `Ready` condition at all gets one appended with
`LastHeartbeatTime = now` and leaves the tick marked `True`. -/
theorem c9_monitor_ready_definite (now timeout : Int) (node : KNode)
    (ht : 0 ≤ timeout) :
    (∃ c, firstReady ((checkNodeCondition now timeout node).1).status.conditions
        = some c ∧ (c.status = "True" ∨ c.status = "False")) ∧
    (findReadyIdx node.status.conditions = none →
      ∃ c, firstReady ((checkNodeCondition now timeout node).1).status.conditions
        = some c ∧ c.status = "True" ∧ c.lastHeartbeatTime = now) := by
  cases h : findReadyIdx node.status.conditions with
  | some i =>
    obtain ⟨hty, hfr⟩ :=
      findReadyIdx_some_getD node.status.conditions i (neverUpdatedCondition now) h
    constructor
    · by_cases h1 : now - (node.status.conditions.getD i
          (neverUpdatedCondition now)).lastHeartbeatTime > timeout
      · by_cases h2 : (node.status.conditions.getD i
            (neverUpdatedCondition now)).status ≠ "False"
        · have hgoal : firstReady
              ((checkNodeCondition now timeout node).1).status.conditions
              = some { node.status.conditions.getD i (neverUpdatedCondition now) with
                  status := "False"
                  lastTransitionTime := now
                  reason := "NodeNotReady"
                  message := "Node has not sent a heartbeat for "
                    ++ toString (now - (node.status.conditions.getD i
                        (neverUpdatedCondition now)).lastHeartbeatTime) } := by
            simp only [checkNodeCondition, h, if_pos h1, if_pos h2, setConds]
            exact firstReady_set_of_findReadyIdx _ i _ h hty
          exact ⟨_, hgoal, Or.inr rfl⟩
        · have hgoal : firstReady
              ((checkNodeCondition now timeout node).1).status.conditions
              = some (node.status.conditions.getD i (neverUpdatedCondition now)) := by
            simp only [checkNodeCondition, h, if_pos h1, if_neg h2, setConds]
            exact hfr
          exact ⟨_, hgoal, Or.inr (not_not.mp h2)⟩
      · by_cases h3 : (node.status.conditions.getD i
            (neverUpdatedCondition now)).status ≠ "True"
        · have hgoal : firstReady
              ((checkNodeCondition now timeout node).1).status.conditions
              = some { node.status.conditions.getD i (neverUpdatedCondition now) with
                  status := "True"
                  lastTransitionTime := now
                  reason := "NodeReady"
                  message := "Node is ready" } := by
            simp only [checkNodeCondition, h, if_neg h1, if_pos h3, setConds]
            exact firstReady_set_of_findReadyIdx _ i _ h hty
          exact ⟨_, hgoal, Or.inl rfl⟩
        · have hgoal : firstReady
              ((checkNodeCondition now timeout node).1).status.conditions
              = some (node.status.conditions.getD i (neverUpdatedCondition now)) := by
            simp only [checkNodeCondition, h, if_neg h1, if_neg h3, setConds]
            exact hfr
          exact ⟨_, hgoal, Or.inl (not_not.mp h3)⟩
    · intro habs
      exact Option.noConfusion habs
  | none =>
    have hgd : (node.status.conditions ++ [neverUpdatedCondition now]).getD
        node.status.conditions.length (neverUpdatedCondition now)
        = neverUpdatedCondition now :=
      getD_append_length _ _ _
    have hset : (node.status.conditions ++ [neverUpdatedCondition now]).set
        node.status.conditions.length
        { neverUpdatedCondition now with
          status := "True"
          lastTransitionTime := now
          reason := "NodeReady"
          message := "Node is ready" }
        = node.status.conditions ++ [{ neverUpdatedCondition now with
            status := "True"
            lastTransitionTime := now
            reason := "NodeReady"
            message := "Node is ready" }] :=
      set_append_length _ _ _
    have hnotgt : ¬ now - (neverUpdatedCondition now).lastHeartbeatTime > timeout := by
      have : now - (neverUpdatedCondition now).lastHeartbeatTime = 0 := by
        simp [neverUpdatedCondition]
      rw [this]
      omega
    have hne : (neverUpdatedCondition now).status ≠ "True" := by
      simp [neverUpdatedCondition]
    have key : firstReady ((checkNodeCondition now timeout node).1).status.conditions
        = some { neverUpdatedCondition now with
            status := "True"
            lastTransitionTime := now
            reason := "NodeReady"
            message := "Node is ready" } := by
      simp only [checkNodeCondition, h, hgd, if_neg hnotgt, if_pos hne, hset, setConds]
      exact firstReady_append_of_none _ _ h (by simp [neverUpdatedCondition])
    constructor
    · exact ⟨_, key, Or.inl rfl⟩
    · intro _
      exact ⟨_, key, rfl, rfl⟩

/-- C9 witness: a node with no conditions at all, examined at time 50
with a 120-unit timeout, ends with a `Ready = True` condition whose
heartbeat timestamp is 50. -/
theorem c9_monitor_ready_definite_witness :
    ∃ c, firstReady ((checkNodeCondition 50 120
        { metadata := { name := "fresh", namesp := "", labels := [], uid := "u" },
          status := { allocatable := [], conditions := [] } }).1).status.conditions
      = some c ∧ c.status = "True" ∧ c.lastHeartbeatTime = 50 :=
  (c9_monitor_ready_definite 50 120 _ (by decide)).2 (by decide)

/-! ## C7 — load-balancer round robin -/

/-- Dummy endpoint for total indexing. -/
def epDummy : KEndpoint :=
  ⟨"", 0, false, ""⟩

theorem dispatch_of_no_healthy (sp : ProxyState)
    (h : sp.endpoints.filter (fun e => e.ready) = []) :
    dispatch sp = (.unavailable 503 "No healthy endpoints available", sp) := by
  unfold dispatch getNextHealthyEndpoint
  by_cases he : sp.endpoints = []
  · simp [he]
  · simp [he, h]

theorem dispatch_of_healthy (sp : ProxyState)
    (h : sp.endpoints.filter (fun e => e.ready) ≠ []) :
    dispatch sp = (.routed ((sp.endpoints.filter (fun e => e.ready)).getD
        (sp.current % (sp.endpoints.filter (fun e => e.ready)).length) epDummy),
      { sp with current := sp.current + 1 }) := by
  have he : sp.endpoints ≠ [] := by
    intro habs
    rw [habs] at h
    exact h rfl
  have hlen : 0 < (sp.endpoints.filter (fun e => e.ready)).length :=
    List.length_pos.mpr h
  unfold dispatch getNextHealthyEndpoint
  rw [if_neg he, dif_neg h]
  rw [List.getD_eq_getElem _ _ (Nat.mod_lt _ hlen)]
  rfl

theorem dispatch_endpoints_eq (sp : ProxyState) :
    (dispatch sp).2.endpoints = sp.endpoints := by
  by_cases h : sp.endpoints.filter (fun e => e.ready) = []
  · rw [dispatch_of_no_healthy sp h]
  · rw [dispatch_of_healthy sp h]

/-- The response list of `K` dispatches against a fixed endpoint list
with at least one ready endpoint: the cursor walks `cur, cur+1, …` and
each response routes `healthy[(cur+t) % N]`. -/
theorem dispatchN_formula (eps : List KEndpoint) (K : Nat) :
    ∀ cur : Nat, eps.filter (fun e => e.ready) ≠ [] →
    dispatchN K ⟨eps, cur⟩
      = ((List.range K).map (fun t => .routed ((eps.filter (fun e => e.ready)).getD
          ((cur + t) % (eps.filter (fun e => e.ready)).length) epDummy)),
        ⟨eps, cur + K⟩) := by
  induction K with
  | zero =>
    intro cur _
    simp [dispatchN]
  | succ K ih =>
    intro cur hh
    have hd := dispatch_of_healthy ⟨eps, cur⟩ hh
    have hrest := ih (cur + 1) hh
    have hmap : (List.range (K + 1)).map
        (fun t => DispatchResult.routed ((eps.filter (fun e => e.ready)).getD
          ((cur + t) % (eps.filter (fun e => e.ready)).length) epDummy))
        = DispatchResult.routed ((eps.filter (fun e => e.ready)).getD
            (cur % (eps.filter (fun e => e.ready)).length) epDummy)
          :: (List.range K).map
            (fun t => DispatchResult.routed ((eps.filter (fun e => e.ready)).getD
              ((cur + 1 + t) % (eps.filter (fun e => e.ready)).length) epDummy)) := by
      rw [List.range_succ_eq_map, List.map_cons, List.map_map]
      congr 1
      apply List.map_congr_left
      intro t ht
      have harg : cur + Nat.succ t = cur + 1 + t := by omega
      simp only [Function.comp_apply]
      rw [harg]
    have hcur : cur + 1 + K = cur + (K + 1) := by omega
    simp only [dispatchN, hd, hrest, hmap, hcur]

/-- In any window `range K` the congruence class of `j` modulo `N`
(shifted by `c`) is hit at least `K / N` times. -/
theorem countP_mod_range (N j : Nat) (hj : j < N) :
    ∀ q c K, N * q ≤ K → q ≤ (List.range K).countP (fun t => (c + t) % N == j) := by
  intro q
  induction q with
  | zero => intro c K _; exact Nat.zero_le _
  | succ q ih =>
    intro c K hK
    have hN : 0 < N := Nat.pos_of_ne_zero (by rintro rfl; exact absurd hj (by simp))
    have hKN : N ≤ K := le_trans (Nat.le_mul_of_pos_right N (Nat.succ_pos q)) hK
    obtain ⟨K2, rfl⟩ : ∃ K2, K = N + K2 := ⟨K - N, by omega⟩
    rw [List.range_add, List.countP_append, List.countP_map]
    have htail : q ≤ (List.range K2).countP
        ((fun t => (c + t) % N == j) ∘ (fun x => N + x)) := by
      have heq : ((fun t => (c + t) % N == j) ∘ (fun x => N + x))
          = fun t => ((c + N) + t) % N == j := by
        funext t
        simp only [Function.comp_apply]
        rw [show c + (N + t) = c + N + t from by omega]
      rw [heq]
      have hmod : (fun t => ((c + N) + t) % N == j) = fun t => (c + t) % N == j := by
        funext t
        congr 1
        conv_lhs => rw [show c + N + t = c + t + N by omega]
        exact Nat.add_mod_right _ _
      rw [hmod]
      have hmul : N * (q + 1) = N * q + N := by ring
      exact ih c K2 (by omega)
    have hclt : c % N < N := Nat.mod_lt _ hN
    have hhead : 1 ≤ (List.range N).countP (fun t => (c + t) % N == j) := by
      rw [Nat.succ_le_iff, List.countP_pos_iff]
      by_cases hcm : c % N ≤ j
      · have h1 : (c + (j - c % N)) % N = j := by
          rw [Nat.add_mod]
          rw [Nat.mod_eq_of_lt (show j - c % N < N by omega)]
          rw [show c % N + (j - c % N) = j by omega]
          exact Nat.mod_eq_of_lt hj
        exact ⟨j - c % N, List.mem_range.mpr (by omega), by simp [h1]⟩
      · have h1 : (c + (N + j - c % N)) % N = j := by
          rw [Nat.add_mod]
          rw [Nat.mod_eq_of_lt (show N + j - c % N < N by omega)]
          rw [show c % N + (N + j - c % N) = N + j by omega]
          rw [Nat.add_mod_left]
          exact Nat.mod_eq_of_lt hj
        exact ⟨N + j - c % N, List.mem_range.mpr (by omega), by simp [h1]⟩
    omega

theorem dispatchN_routed_ready (eps : List KEndpoint) :
    ∀ (K cur : Nat), ∀ r ∈ (dispatchN K ⟨eps, cur⟩).1, ∀ e, r = .routed e →
      e.ready = true := by
  intro K
  induction K with
  | zero => intro cur r hr; simp [dispatchN] at hr
  | succ K ih =>
    intro cur r hr e hre
    by_cases hh : eps.filter (fun x => x.ready) = []
    · have hd := dispatch_of_no_healthy ⟨eps, cur⟩ hh
      simp only [dispatchN, hd] at hr
      rcases List.mem_cons.mp hr with rfl | hr2
      · cases hre
      · exact ih cur r hr2 e hre
    · have hd := dispatch_of_healthy ⟨eps, cur⟩ hh
      simp only [dispatchN, hd] at hr
      rcases List.mem_cons.mp hr with rfl | hr2
      · cases hre
        have hlen : 0 < (eps.filter (fun x => x.ready)).length :=
          List.length_pos.mpr hh
        rw [List.getD_eq_getElem _ _ (Nat.mod_lt _ hlen)]
        have hmem : (eps.filter (fun x => x.ready)).get
            ⟨cur % (eps.filter (fun x => x.ready)).length, Nat.mod_lt _ hlen⟩
            ∈ eps.filter (fun x => x.ready) :=
          List.get_mem _ _ _
        exact (List.mem_filter.mp hmem).2
      · exact ih (cur + 1) r hr2 e hre

/-- C7: with the endpoint list held fixed, each dispatch filters to the
ready endpoints; with none it answers `503 No healthy endpoints
available` and leaves the cursor untouched; otherwise it routes
`healthy[cursor % len(healthy)]` and increments the cursor; every routed
response is a ready endpoint (a never-ready endpoint is never selected);
and over `K` consecutive dispatches every ready endpoint is selected at
least `⌊K / N⌋` times. -/
theorem c7_round_robin (eps : List KEndpoint) (cur K : Nat) :
    (eps.filter (fun e => e.ready) = [] →
      dispatch ⟨eps, cur⟩
        = (.unavailable 503 "No healthy endpoints available", ⟨eps, cur⟩)) ∧
    (eps.filter (fun e => e.ready) ≠ [] →
      dispatch ⟨eps, cur⟩ = (.routed ((eps.filter (fun e => e.ready)).getD
          (cur % (eps.filter (fun e => e.ready)).length) epDummy),
        ⟨eps, cur + 1⟩)) ∧
    (∀ r ∈ (dispatchN K ⟨eps, cur⟩).1, ∀ e, r = .routed e → e.ready = true) ∧
    (∀ e ∈ eps.filter (fun e => e.ready),
      K / (eps.filter (fun e => e.ready)).length
        ≤ (dispatchN K ⟨eps, cur⟩).1.count (.routed e)) := by
  refine ⟨dispatch_of_no_healthy ⟨eps, cur⟩, dispatch_of_healthy ⟨eps, cur⟩, ?_, ?_⟩
  · exact dispatchN_routed_ready eps K cur
  · intro e he
    have hh : eps.filter (fun x => x.ready) ≠ [] := by
      intro h0
      rw [h0] at he
      cases he
    have hform := dispatchN_formula eps K cur hh
    have hlist : (dispatchN K ⟨eps, cur⟩).1
        = (List.range K).map (fun t => .routed ((eps.filter (fun x => x.ready)).getD
            ((cur + t) % (eps.filter (fun x => x.ready)).length) epDummy)) :=
      congrArg Prod.fst hform
    rw [hlist, List.count_eq_countP, List.countP_map]
    obtain ⟨⟨j, hjlt⟩, hjget⟩ := List.mem_iff_get.mp he
    have hstep := countP_mod_range (eps.filter (fun x => x.ready)).length j hjlt
      (K / (eps.filter (fun x => x.ready)).length) cur K
      (by rw [Nat.mul_comm]; exact Nat.div_mul_le_self K _)
    refine le_trans hstep (List.countP_mono_left ?_)
    intro t ht hp
    have hpj : (cur + t) % (eps.filter (fun x => x.ready)).length = j := by
      simpa using hp
    simp only [Function.comp_apply, hpj]
    rw [List.getD_eq_getElem _ _ hjlt]
    have : (eps.filter (fun x => x.ready))[j] = e := hjget
    rw [this]
    simp

/-- Endpoints of the C7 witness: two ready, one not ready. -/
def w7e1 : KEndpoint := ⟨"10.0.0.1", 8080, true, "n1"⟩

/-- The never-ready endpoint of the C7 witness. -/
def w7e2 : KEndpoint := ⟨"10.0.0.2", 8080, false, "n2"⟩

/-- The second ready endpoint of the C7 witness. -/
def w7e3 : KEndpoint := ⟨"10.0.0.3", 8080, true, "n3"⟩

/-- C7 witness: on [ready, unready, ready] the first dispatch routes the
first ready endpoint and advances the cursor; an empty list answers 503
untouched; over 10 dispatches endpoint 3 is routed at least 5 times. -/
theorem c7_round_robin_witness :
    dispatch ⟨[w7e1, w7e2, w7e3], 0⟩ = (.routed w7e1, ⟨[w7e1, w7e2, w7e3], 1⟩) ∧
    dispatch ⟨[], 5⟩ = (.unavailable 503 "No healthy endpoints available", ⟨[], 5⟩) ∧
    5 ≤ (dispatchN 10 ⟨[w7e1, w7e2, w7e3], 0⟩).1.count (.routed w7e3) := by
  refine ⟨?_, ?_, ?_⟩
  · exact ((c7_round_robin [w7e1, w7e2, w7e3] 0 10).2.1 (by decide)).trans (by decide)
  · exact (c7_round_robin [] 5 0).1 (by decide)
  · exact (c7_round_robin [w7e1, w7e2, w7e3] 0 10).2.2.2 w7e3 (by decide)

/-! ## C4 — endpoint-list comparison -/

/-- Two endpoint lists induce the same key-to-value map (keys `(ip,
port)`, values `(ready, nodeName)`, last occurrence winning as in a Go
map build). -/
def sameEndpointMap (a b : List KEndpoint) : Prop :=
  ∀ k, epLookup a k = epLookup b k

theorem epLookup_eq_none_iff (a : List KEndpoint) (k : String × Int) :
    epLookup a k = none ↔ k ∉ a.map epKey := by
  induction a with
  | nil => simp [epLookup]
  | cons f rest ih =>
    simp only [epLookup, List.map_cons, List.mem_cons]
    cases hr : epLookup rest k with
    | some v =>
      have : k ∈ rest.map epKey := by
        by_contra hk
        rw [← ih] at hk
        rw [hk] at hr
        cases hr
      simp [this]
    | none =>
      have hk : k ∉ rest.map epKey := (ih).mp hr
      by_cases hf : epKey f = k
      · simp [hf, hk]
      · simp [hf, hk, Ne.symm hf]

theorem epLookup_eq_some_iff (a : List KEndpoint) (k : String × Int)
    (v : Bool × String) (ha : (a.map epKey).Nodup) :
    epLookup a k = some v ↔ ∃ e ∈ a, epKey e = k ∧ epVal e = v := by
  induction a with
  | nil => simp [epLookup]
  | cons f rest ih =>
    rw [List.map_cons, List.nodup_cons] at ha
    obtain ⟨hf, ha2⟩ := ha
    simp only [epLookup, List.mem_cons]
    cases hr : epLookup rest k with
    | some v2 =>
      have hkmem : k ∈ rest.map epKey := by
        by_contra hk
        rw [← epLookup_eq_none_iff] at hk
        rw [hk] at hr
        cases hr
      have hfk : epKey f ≠ k := by
        intro h
        rw [h] at hf
        exact hf hkmem
      constructor
      · intro h
        obtain ⟨e, he, hek, hev⟩ := (ih ha2).mp (hr.trans h)
        exact ⟨e, Or.inr he, hek, hev⟩
      · rintro ⟨e, he | he, hek, hev⟩
        · exact absurd (he ▸ hek) hfk
        · exact hr.symm.trans ((ih ha2).mpr ⟨e, he, hek, hev⟩)
    | none =>
      have hkrest : k ∉ rest.map epKey := (epLookup_eq_none_iff rest k).mp hr
      by_cases hfk : epKey f = k
      · rw [if_pos hfk]
        constructor
        · intro h
          exact ⟨f, Or.inl rfl, hfk, Option.some_inj.mp h⟩
        · rintro ⟨e, he | he, hek, hev⟩
          · subst he
            rw [hev]
          · exact absurd (hek ▸ (List.mem_map_of_mem epKey he)) hkrest
      · rw [if_neg hfk]
        constructor
        · intro h
          cases h
        · rintro ⟨e, he | he, hek, hev⟩
          · exact absurd (he ▸ hek) hfk
          · exact absurd (hek ▸ (List.mem_map_of_mem epKey he)) hkrest

theorem endpointsEqual_iff_sameMap (a b : List KEndpoint)
    (ha : (a.map epKey).Nodup) (hb : (b.map epKey).Nodup) :
    endpointsEqual a b = true ↔ sameEndpointMap a b := by
  unfold endpointsEqual
  rw [Bool.and_eq_true, beq_iff_eq, List.all_eq_true]
  constructor
  · rintro ⟨hlen, hall⟩ k
    cases hak : epLookup a k with
    | some v =>
      have hkmem : k ∈ a.map epKey := by
        by_contra hk
        rw [← epLookup_eq_none_iff] at hk
        rw [hk] at hak
        cases hak
      obtain ⟨e, he, hek⟩ := List.mem_map.mp hkmem
      have hc := hall e he
      rw [hek, hak] at hc
      cases hbk : epLookup b k with
      | some w =>
        rw [hbk] at hc
        simp only [beq_iff_eq] at hc
        rw [hc]
      | none =>
        rw [hbk] at hc
        cases hc
    | none =>
      have hsub : ∀ k2 ∈ a.map epKey, k2 ∈ b.map epKey := by
        intro k2 hk2
        obtain ⟨e, he, hek⟩ := List.mem_map.mp hk2
        have hc := hall e he
        cases hae : epLookup a (epKey e) with
        | none =>
          exact absurd ((epLookup_eq_none_iff a (epKey e)).mp hae)
            (by rw [hek]; exact fun hn => hn hk2)
        | some v =>
          rw [hae] at hc
          cases hbe : epLookup b (epKey e) with
          | none =>
            rw [hbe] at hc
            cases hc
          | some w =>
            rw [← hek]
            by_contra hnb
            rw [← epLookup_eq_none_iff] at hnb
            rw [hnb] at hbe
            cases hbe
      have hfa : (a.map epKey).toFinset.card = a.length := by
        rw [List.toFinset_card_of_nodup ha, List.length_map]
      have hfb : (b.map epKey).toFinset.card = b.length := by
        rw [List.toFinset_card_of_nodup hb, List.length_map]
      have hfeq : (a.map epKey).toFinset = (b.map epKey).toFinset := by
        refine Finset.eq_of_subset_of_card_le ?_ ?_
        · intro k2 hk2
          exact List.mem_toFinset.mpr (hsub k2 (List.mem_toFinset.mp hk2))
        · rw [hfa, hfb, hlen]
      have hka : k ∉ a.map epKey := (epLookup_eq_none_iff a k).mp hak
      have hkb : k ∉ b.map epKey := by
        intro hk
        exact hka (List.mem_toFinset.mp (hfeq ▸ List.mem_toFinset.mpr hk))
      exact ((epLookup_eq_none_iff b k).mpr hkb).symm
  · intro hs
    have hmemiff : ∀ k, k ∈ a.map epKey ↔ k ∈ b.map epKey := by
      intro k
      constructor
      · intro hk
        by_contra hkb
        rw [← epLookup_eq_none_iff] at hkb
        rw [← hs k, epLookup_eq_none_iff] at hkb
        exact hkb hk
      · intro hk
        by_contra hka
        rw [← epLookup_eq_none_iff] at hka
        rw [hs k, epLookup_eq_none_iff] at hka
        exact hka hk
    have hperm : (a.map epKey).Perm (b.map epKey) :=
      (List.perm_ext_iff_of_nodup ha hb).mpr hmemiff
    refine ⟨?_, ?_⟩
    · have := hperm.length_eq
      rwa [List.length_map, List.length_map] at this
    · intro e he
      have hkmem : epKey e ∈ a.map epKey := List.mem_map_of_mem epKey he
      cases hae : epLookup a (epKey e) with
      | none =>
        exact absurd ((epLookup_eq_none_iff a (epKey e)).mp hae) (fun hn => hn hkmem)
      | some v =>
        have hbe : epLookup b (epKey e) = some v := (hs (epKey e)).symm.trans hae
        rw [hbe]
        simp

/-- Duplicate-key endpoint list: one key `(10.0.0.1, 80)` with two
different values. -/
def c4dup : List KEndpoint :=
  [⟨"10.0.0.1", 80, true, "n1"⟩, ⟨"10.0.0.1", 80, false, "n2"⟩]

/-- C4 counterexample: `c4dup.reverse` is a permutation of `c4dup`, yet
`endpointsEqual` distinguishes them (the duplicate key's last occurrence
wins when the Go maps are built, and the two orders keep different
values) — so endpointsEqual is not plain order-independent equality of
induced maps on all lists. -/
theorem c4_counterexample :
    c4dup.Perm c4dup.reverse ∧ endpointsEqual c4dup c4dup.reverse = false :=
  ⟨(List.reverse_perm c4dup).symm, by decide⟩

/-- C4 (amended): on endpoint lists with duplicate-free `(ip, port)`
keys, `endpointsEqual` is exactly order-independent key-map equality
with value equality on `(ready, nodeName)`; any permutation of such a
list compares equal; and `reconcileService` skips the service-status
write exactly when the newly built list compares equal to the stored
one. With duplicate keys the comparison uses last-occurrence values and
can distinguish permutations (see the counterexample). -/
theorem c4_endpoints_equality :
    (∀ a b : List KEndpoint, (a.map epKey).Nodup → (b.map epKey).Nodup →
      (endpointsEqual a b = true ↔ sameEndpointMap a b)) ∧
    (∀ a b : List KEndpoint, (a.map epKey).Nodup → a.Perm b →
      endpointsEqual a b = true) ∧
    (∀ (svc : ServiceRow) (pods : List PodRow), reconcileService svc pods = none ↔
      endpointsEqual svc.endpoints
        (buildEndpoints (findMatchingPods svc.selector pods svc.namesp) svc.ports)
        = true) := by
  refine ⟨endpointsEqual_iff_sameMap, ?_, ?_⟩
  · intro a b ha hperm
    have hb : (b.map epKey).Nodup := ((hperm.map epKey).nodup_iff).mp ha
    refine (endpointsEqual_iff_sameMap a b ha hb).mpr ?_
    intro k
    cases hak : epLookup a k with
    | some v =>
      obtain ⟨e, he, hek, hev⟩ := (epLookup_eq_some_iff a k v ha).mp hak
      exact ((epLookup_eq_some_iff b k v hb).mpr
        ⟨e, hperm.subset he, hek, hev⟩).symm
    | none =>
      have hka : k ∉ a.map epKey := (epLookup_eq_none_iff a k).mp hak
      have hkb : k ∉ b.map epKey := fun hk =>
        hka ((hperm.map epKey).mem_iff.mpr hk)
      exact ((epLookup_eq_none_iff b k).mpr hkb).symm
  · intro svc pods
    unfold reconcileService
    by_cases h : endpointsEqual svc.endpoints
        (buildEndpoints (findMatchingPods svc.selector pods svc.namesp) svc.ports)
        = true
    · simp [h]
    · simp [h]

/-- Service used in the C4 witness: empty selector, no stored
endpoints. -/
def c4svc : ServiceRow where
  namesp := "default"
  name := "svc"
  selector := []
  ports := [⟨"", 80, 8080⟩]
  endpoints := []

/-- C4 witness: two distinct-key lists in swapped order compare equal,
and reconciling a service whose freshly built endpoints match its stored
(empty) endpoints skips the write. -/
theorem c4_endpoints_equality_witness :
    endpointsEqual [w7e1, w7e3] [w7e3, w7e1] = true ∧
    reconcileService c4svc [] = none := by
  constructor
  · exact (c4_endpoints_equality.2.1 [w7e1, w7e3] [w7e3, w7e1] (by decide)
      (List.Perm.swap w7e3 w7e1 []))
  · exact (c4_endpoints_equality.2.2 c4svc []).mpr (by decide)

/-! ## C2 — resource-aware node selection -/

/-- A node survives the resource check: its allocatable cpu and memory
are present and parse, and neither axis is strictly below the pod's
request. -/
def nodeFits (cr mr : Int) (nd : KNode) : Bool :=
  match getNodeAvailableResources nd with
  | .ok (ncpu, nmem) => if ncpu < cr ∨ nmem < mr then false else true
  | .error _ => false

/-- The score the best-fit loop assigns to a node (0 when the
allocatable does not resolve; such nodes never reach the scoring). -/
def raScore (cr mr : Int) (nd : KNode) : ℚ :=
  match getNodeAvailableResources nd with
  | .ok (ncpu, nmem) => nodeScore cr mr ncpu nmem
  | .error _ => 0

/-- `nd` is the first node of `survivors` attaining the minimal score:
it is a member, no score is smaller, and every node before it scores
strictly higher. -/
def FirstMinChoice (f : KNode → ℚ) (survivors : List KNode) (nd : KNode) : Prop :=
  nd ∈ survivors ∧ (∀ m ∈ survivors, f nd ≤ f m) ∧
  ∃ l₁ l₂, survivors = l₁ ++ nd :: l₂ ∧ ∀ m ∈ l₁, f nd < f m

/-- Reference strict-improvement scan: keep the current best, replace it
only on a strictly smaller score. -/
def pickBest (f : KNode → ℚ) (b : KNode) : List KNode → KNode
  | [] => b
  | n :: rest => if f n < f b then pickBest f n rest else pickBest f b rest

theorem raScore_nonneg (cr mr : Int) (hcr : 0 ≤ cr) (hmr : 0 ≤ mr) (nd : KNode)
    (hfit : nodeFits cr mr nd = true) : 0 ≤ raScore cr mr nd := by
  cases hres : getNodeAvailableResources nd with
  | error e => simp [nodeFits, hres] at hfit
  | ok p =>
    obtain ⟨c, m⟩ := p
    simp only [nodeFits, hres] at hfit
    simp only [raScore, hres]
    by_cases hlt : c < cr ∨ m < mr
    · rw [if_pos hlt] at hfit; cases hfit
    · push_neg at hlt
      have hc : (0 : ℚ) ≤ (cr : ℚ) / (c : ℚ) := by
        apply div_nonneg
        · exact_mod_cast hcr
        · exact_mod_cast le_trans hcr hlt.1
      exact le_trans hc (le_max_left _ _)

theorem raStep_skip (cr mr : Int) (acc : Option KNode × ℚ) (nd : KNode)
    (h : nodeFits cr mr nd = false) : raStep cr mr acc nd = acc := by
  cases hres : getNodeAvailableResources nd with
  | error e => simp [raStep, hres]
  | ok p =>
    obtain ⟨c, m⟩ := p
    simp only [nodeFits, hres] at h
    simp only [raStep, hres]
    by_cases hlt : c < cr ∨ m < mr
    · rw [if_pos hlt]
    · rw [if_neg hlt] at h; cases h

theorem raStep_fit (cr mr : Int) (acc : Option KNode × ℚ) (nd : KNode)
    (h : nodeFits cr mr nd = true) :
    raStep cr mr acc nd
      = if acc.2 = -1 ∨ raScore cr mr nd < acc.2
        then (some nd, raScore cr mr nd) else acc := by
  cases hres : getNodeAvailableResources nd with
  | error e => simp [nodeFits, hres] at h
  | ok p =>
    obtain ⟨c, m⟩ := p
    simp only [nodeFits, hres] at h
    simp only [raStep, raScore, hres]
    by_cases hlt : c < cr ∨ m < mr
    · rw [if_pos hlt] at h; cases h
    · rw [if_neg hlt]

/-- The best-fit fold from an established best node `b` computes the
strict-improvement scan over the surviving nodes. -/
theorem raFold_some (cr mr : Int) (hcr : 0 ≤ cr) (hmr : 0 ≤ mr) :
    ∀ (L : List KNode) (b : KNode), 0 ≤ raScore cr mr b →
    L.foldl (raStep cr mr) (some b, raScore cr mr b)
      = (some (pickBest (raScore cr mr) b (L.filter (nodeFits cr mr))),
         raScore cr mr (pickBest (raScore cr mr) b (L.filter (nodeFits cr mr)))) := by
  intro L
  induction L with
  | nil => intro b _; rfl
  | cons nd rest ih =>
    intro b hb
    rw [List.foldl_cons]
    cases hfit : nodeFits cr mr nd with
    | false =>
      rw [raStep_skip cr mr _ nd hfit, List.filter_cons_of_neg (by simp [hfit])]
      exact ih b hb
    | true =>
      rw [raStep_fit cr mr _ nd hfit, List.filter_cons_of_pos hfit]
      have hbne : ¬ (raScore cr mr b = -1) := by
        intro habs
        rw [habs] at hb
        norm_num at hb
      by_cases hless : raScore cr mr nd < raScore cr mr b
      · rw [if_pos (Or.inr hless)]
        rw [ih nd (raScore_nonneg cr mr hcr hmr nd hfit)]
        simp only [pickBest, if_pos hless]
      · rw [if_neg (by simp [hbne, hless])]
        rw [ih b hb]
        simp only [pickBest, if_neg hless]

/-- The best-fit fold from the `-1` sentinel: no survivor gives no node;
otherwise the scan starts at the first survivor. -/
theorem raFold_none (cr mr : Int) (hcr : 0 ≤ cr) (hmr : 0 ≤ mr) (L : List KNode) :
    L.foldl (raStep cr mr) (none, -1)
      = match L.filter (nodeFits cr mr) with
        | [] => (none, -1)
        | h :: t => (some (pickBest (raScore cr mr) h t),
            raScore cr mr (pickBest (raScore cr mr) h t)) := by
  induction L with
  | nil => rfl
  | cons nd rest ih =>
    rw [List.foldl_cons]
    cases hfit : nodeFits cr mr nd with
    | false =>
      rw [raStep_skip cr mr _ nd hfit, List.filter_cons_of_neg (by simp [hfit])]
      exact ih
    | true =>
      rw [raStep_fit cr mr _ nd hfit, List.filter_cons_of_pos hfit]
      rw [if_pos (Or.inl rfl)]
      exact raFold_some cr mr hcr hmr rest nd (raScore_nonneg cr mr hcr hmr nd hfit)

/-- The strict-improvement scan selects exactly the first minimal-score
node. -/
theorem pickBest_firstMin (f : KNode → ℚ) :
    ∀ (t : List KNode) (b : KNode), FirstMinChoice f (b :: t) (pickBest f b t) := by
  intro t
  induction t with
  | nil =>
    intro b
    exact ⟨List.mem_singleton.mpr rfl, by simp [pickBest],
      [], [], by simp [pickBest], by simp⟩
  | cons n rest ih =>
    intro b
    by_cases h : f n < f b
    · obtain ⟨hmem, hmin, l₁, l₂, hdec, hstrict⟩ := ih n
      have hple : f (pickBest f n rest) ≤ f n := hmin n (List.mem_cons_self n rest)
      refine ⟨?_, ?_, b :: l₁, l₂, ?_, ?_⟩
      · simp only [pickBest, if_pos h]
        exact List.mem_cons_of_mem b hmem
      · intro m hm
        simp only [pickBest, if_pos h]
        rcases List.mem_cons.mp hm with rfl | hm2
        · exact le_of_lt (lt_of_le_of_lt hple h)
        · exact hmin m hm2
      · simp only [pickBest, if_pos h, List.cons_append, hdec]
      · intro m hm
        simp only [pickBest, if_pos h]
        rcases List.mem_cons.mp hm with rfl | hm2
        · exact lt_of_le_of_lt hple h
        · exact hstrict m hm2
    · obtain ⟨hmem, hmin, l₁, l₂, hdec, hstrict⟩ := ih b
      have hble : f b ≤ f n := not_lt.mp h
      have hpb : f (pickBest f b rest) ≤ f b := hmin b (List.mem_cons_self b rest)
      cases l₁ with
      | nil =>
        have hpeq : pickBest f b rest = b := by
          have := hdec
          simp only [List.nil_append] at this
          exact (List.cons.injEq _ _ _ _ ▸ this).1.symm
        refine ⟨?_, ?_, [], n :: rest, ?_, ?_⟩
        · simp only [pickBest, if_neg h, hpeq]
          exact List.mem_cons_self _ _
        · intro m hm
          simp only [pickBest, if_neg h, hpeq]
          rcases List.mem_cons.mp hm with rfl | hm2
          · exact le_refl _
          · rcases List.mem_cons.mp hm2 with rfl | hm3
            · exact hble
            · have := hmin m (List.mem_cons_of_mem b hm3)
              rw [hpeq] at this
              exact this
        · simp only [pickBest, if_neg h, hpeq, List.nil_append]
        · intro m hm
          cases hm
      | cons b0 l₁t =>
        have hinj : b0 = b ∧ rest = l₁t ++ pickBest f b rest :: l₂ := by
          have := hdec
          simp only [List.cons_append] at this
          exact ⟨((List.cons.injEq _ _ _ _ ▸ this).1).symm,
            (List.cons.injEq _ _ _ _ ▸ this).2⟩
        have hpltb : f (pickBest f b rest) < f b := by
          have := hstrict b0 (List.mem_cons_self b0 l₁t)
          rw [hinj.1] at this
          exact this
        refine ⟨?_, ?_, b :: n :: l₁t, l₂, ?_, ?_⟩
        · simp only [pickBest, if_neg h]
          rcases List.mem_cons.mp hmem with heq | hm2
          · rw [heq]; exact List.mem_cons_self _ _
          · exact List.mem_cons_of_mem b (List.mem_cons_of_mem n hm2)
        · intro m hm
          simp only [pickBest, if_neg h]
          rcases List.mem_cons.mp hm with rfl | hm2
          · exact hpb
          · rcases List.mem_cons.mp hm2 with rfl | hm3
            · exact le_trans hpb hble
            · exact hmin m (List.mem_cons_of_mem b hm3)
        · simp only [pickBest, if_neg h, List.cons_append]
          rw [← hinj.2]
        · intro m hm
          simp only [pickBest, if_neg h]
          rcases List.mem_cons.mp hm with rfl | hm2
          · exact hpltb
          · rcases List.mem_cons.mp hm2 with rfl | hm3
            · exact lt_of_lt_of_le hpltb hble
            · have := hstrict m (List.mem_cons_of_mem b0 hm3)
              exact this

/-- A node's parsed allocatable is positive on both axes (or fails to
parse). Go computes the scores in `float64`, where a surviving node with
a zero allocatable and a zero request would produce a NaN score; under
`posAlloc` no division by zero arises and the exact rational scores of
this embedding coincide with the float computation. -/
def posAlloc (nd : KNode) : Bool :=
  match getNodeAvailableResources nd with
  | .ok (c, m) => if 0 < c ∧ 0 < m then true else false
  | .error _ => true

/-- C2 (amended): for pods whose total request is nonnegative on both
axes, the resource-aware selector partitions the selector-eligible
nodes by `nodeFits` — a node is rejected exactly when its allocatable
cpu or memory is missing, fails to parse, or is strictly below the
request on either axis. With no survivor it fails with
`no node with sufficient resources available` (which contains the
claimed substring) and the scheduler never binds the pod; otherwise it
returns the first survivor minimizing
`max(cpuRequest/cpuAlloc, memRequest/memAlloc)`. The nonnegativity
restriction is forced: a negative total can score a survivor at exactly
-1, the loop's `bestScore == -1` "none yet" sentinel, making the code
discard the current best node and return a later, strictly
worse-scoring one — the counterexample exhibits this collision. -/
theorem c2_resource_selection (pod : KPod) (nodes eligible : List KNode)
    (cr mr : Int)
    (hne : nodes ≠ [])
    (helig : eligibleNodes pod nodes = some eligible)
    (hreq : calculatePodResourceRequests pod = .ok (cr, mr))
    (hcr : 0 ≤ cr) (hmr : 0 ≤ mr)
    (hpos : ∀ nd ∈ eligible, posAlloc nd = true) :
    (eligible.filter (nodeFits cr mr) = [] →
      selectNodeRA pod nodes = .err "no node with sufficient resources available" ∧
      (∃ suffix, "no node with sufficient resources available"
        = "no node with sufficient resources" ++ suffix) ∧
      (∀ (now : Int) (st : ClusterState) (prow : PodRow), podOfRow prow = pod →
        schedulePodWith selectNodeRA now st prow nodes = st)) ∧
    (eligible.filter (nodeFits cr mr) ≠ [] →
      ∃ nd, selectNodeRA pod nodes = .ok nd ∧
        FirstMinChoice (raScore cr mr) (eligible.filter (nodeFits cr mr)) nd) := by
  have hfold := raFold_none cr mr hcr hmr eligible
  have hsel : selectNodeRA pod nodes
      = match (eligible.foldl (raStep cr mr) (none, -1)).1 with
        | some nd => .ok nd
        | none => .err "no node with sufficient resources available" := by
    unfold selectNodeRA
    rw [if_neg hne, helig, hreq]
  constructor
  · intro hfil
    rw [hfil] at hfold
    have hselErr : selectNodeRA pod nodes
        = .err "no node with sufficient resources available" := by
      rw [hsel, hfold]
    refine ⟨hselErr, ⟨" available", rfl⟩, ?_⟩
    intro now st prow hprow
    unfold schedulePodWith
    by_cases hb : (st.bindings.any fun b => b.podID == prow.id) = true
    · rw [if_pos hb]
    · rw [if_neg hb, hprow, hselErr]
  · intro hfil
    cases hfilc : eligible.filter (nodeFits cr mr) with
    | nil => exact absurd hfilc hfil
    | cons hd tl =>
      rw [hfilc] at hfold
      refine ⟨pickBest (raScore cr mr) hd tl, ?_, ?_⟩
      · rw [hsel, hfold]
      · exact pickBest_firstMin (raScore cr mr) tl hd

/-- Node `small` of the pressure scenario: 2 cores, 4 GiB. -/
def c2small : KNode where
  metadata := { name := "small", namesp := "", labels := [], uid := "uid-small" }
  status := { allocatable := [("cpu", "2"), ("memory", "4Gi")],
              conditions := [readyTrueCond] }

/-- Node `large` of the pressure scenario: 8 cores, 16 GiB. -/
def c2large : KNode where
  metadata := { name := "large", namesp := "", labels := [], uid := "uid-large" }
  status := { allocatable := [("cpu", "8"), ("memory", "16Gi")],
              conditions := [readyTrueCond] }

/-- Pod requesting 4 cores and 8 GiB. -/
def c2pod : KPod where
  metadata := { name := "p", namesp := "default", labels := [], uid := "uid-p2" }
  spec :=
    { containers := [⟨"c", [], [("cpu", "4"), ("memory", "8Gi")]⟩]
      nodeSelector := []
      nodeName := "" }
  status := { phase := "Pending", conditions := [], containerStatuses := [], podIP := "" }

/-- C2 witness: the 4-core/8-GiB pod on nodes small (2 cores / 4 GiB)
and large (8 cores / 16 GiB): the selection picks the surviving first
minimal-pressure node. -/
theorem c2_resource_selection_witness :
    ∃ nd, selectNodeRA c2pod [c2small, c2large] = .ok nd ∧
      FirstMinChoice (raScore 4000 8589934592)
        (List.filter (nodeFits 4000 8589934592) [c2small, c2large]) nd :=
  (c2_resource_selection c2pod [c2small, c2large] [c2small, c2large]
    4000 8589934592 (by decide) (by decide) (by decide) (by decide) (by decide)
    (by decide)).2 (by decide)

/-- A node that carries both allocatable keys but an unparseable cpu
quantity. -/
def badAllocNode : KNode where
  metadata := { name := "bad", namesp := "", labels := [], uid := "uid-bad" }
  status := { allocatable := [("cpu", "abc"), ("memory", "1Gi")],
              conditions := [readyTrueCond] }

/-- A pod with no resource requests (totals parse to zero). -/
def zeroPod : KPod where
  metadata := { name := "z", namesp := "default", labels := [], uid := "uid-z" }
  spec := { containers := [⟨"c", [], []⟩], nodeSelector := [], nodeName := "" }
  status := { phase := "Pending", conditions := [], containerStatuses := [], podIP := "" }

/-- A pod whose parseable total request is (-1000 millicores, -2^30
bytes). -/
def negReqPod : KPod where
  metadata := { name := "negreq", namesp := "default", labels := [], uid := "uid-nr" }
  spec :=
    { containers := [⟨"c", [], [("cpu", "-1"), ("memory", "-1Gi")]⟩]
      nodeSelector := []
      nodeName := "" }
  status := { phase := "Pending", conditions := [], containerStatuses := [], podIP := "" }

/-- 1-core / 1-GiB node: against `negReqPod` its score is exactly -1,
Go's `bestScore` sentinel. -/
def sentinelNode1 : KNode where
  metadata := { name := "sent1", namesp := "", labels := [], uid := "uid-s1" }
  status := { allocatable := [("cpu", "1"), ("memory", "1Gi")],
              conditions := [readyTrueCond] }

/-- 2-core / 2-GiB node: against `negReqPod` its score is -1/2, strictly
worse (higher) than `sentinelNode1`'s. -/
def sentinelNode2 : KNode where
  metadata := { name := "sent2", namesp := "", labels := [], uid := "uid-s2" }
  status := { allocatable := [("cpu", "2"), ("memory", "2Gi")],
              conditions := [readyTrueCond] }

/-- C2 counterexample, refuting the claim at two concrete inputs.
First: `badAllocNode` has both allocatable keys and the pod requests
zero on both axes, so under the claim's rejection rule (missing key, or
parsed allocatable strictly below the request) the node survives and
must be selected; the code instead skips it because its cpu quantity
fails to parse, and reports no sufficient node. Second: the parseable
negative request (-1000, -2^30) gives `sentinelNode1` the score -1,
which collides with the loop's `bestScore == -1` "none yet" sentinel,
so after keeping `sentinelNode1` the code immediately replaces it by the
strictly worse-scoring `sentinelNode2` — the first-minimum property
fails for negative requests. -/
theorem c2_counterexample :
    (calculatePodResourceRequests zeroPod = .ok (0, 0) ∧
     (badAllocNode.status.allocatable.lookup "cpu").isSome = true ∧
     (badAllocNode.status.allocatable.lookup "memory").isSome = true ∧
     (parseCPUResource "abc").isOk = false ∧
     selectNodeRA zeroPod [badAllocNode]
       = .err "no node with sufficient resources available") ∧
    (calculatePodResourceRequests negReqPod = .ok (-1000, -(2 ^ 30)) ∧
     nodeFits (-1000) (-(2 ^ 30)) sentinelNode1 = true ∧
     raScore (-1000) (-(2 ^ 30)) sentinelNode1 = -1 ∧
     raScore (-1000) (-(2 ^ 30)) sentinelNode2 = -(1 / 2) ∧
     raScore (-1000) (-(2 ^ 30)) sentinelNode1
       < raScore (-1000) (-(2 ^ 30)) sentinelNode2 ∧
     selectNodeRA negReqPod [sentinelNode1, sentinelNode2] = .ok sentinelNode2) := by
  have hs1 : getNodeAvailableResources sentinelNode1 = .ok (1000, 1073741824) := by
    decide
  have hs2 : getNodeAvailableResources sentinelNode2 = .ok (2000, 2147483648) := by
    decide
  have hr1 : raScore (-1000) (-(2 ^ 30)) sentinelNode1 = -1 := by
    simp only [raScore, hs1, nodeScore]
    norm_num
  have hr2 : raScore (-1000) (-(2 ^ 30)) sentinelNode2 = -(1 / 2) := by
    simp only [raScore, hs2, nodeScore]
    norm_num
  refine ⟨⟨by decide, by decide, by decide, by decide, by decide⟩,
    by decide, by decide, hr1, hr2, ?_, ?_⟩
  · rw [hr1, hr2]
    norm_num
  · have hne : ([sentinelNode1, sentinelNode2] : List KNode) ≠ [] := by decide
    have helig : eligibleNodes negReqPod [sentinelNode1, sentinelNode2]
        = some [sentinelNode1, sentinelNode2] := by decide
    have hreq : calculatePodResourceRequests negReqPod = .ok (-1000, -1073741824) := by
      decide
    have step1 : raStep (-1000) (-1073741824) ((none : Option KNode), (-1 : ℚ)) sentinelNode1
        = (some sentinelNode1, -1) := by
      simp only [raStep, hs1, nodeScore]
      norm_num
    have step2 : raStep (-1000) (-1073741824) (some sentinelNode1, (-1 : ℚ)) sentinelNode2
        = (some sentinelNode2, -(1 / 2)) := by
      simp only [raStep, hs2, nodeScore]
      norm_num
    simp only [selectNodeRA, if_neg hne, helig, hreq, List.foldl_cons, List.foldl_nil,
      step1, step2]
